import Mathlib

/-!
Verification of the FastestLOLCounterFinder core (src/api-client.js):
match validity filtering, matchup extraction, the counter statistics
engine, the rate limiter and the 429 retry loop of the fetch client.

Modelling conventions:
* JS numbers that hold counts or ids are modelled as naturals, match
  durations as integers, and exact ratios (win rates, thresholds) as
  rationals; the transcendental significance formulas (Math.sqrt,
  Math.exp, Math.sign) are modelled over the reals.
* A JS Map keyed by the string a_vs_b_lane is modelled as an
  insertion-ordered association list keyed by the triple (a, b, lane):
  for the numeric champion ids produced by the extractor the string
  key round-trips through split exactly, so the triple is faithful.
* The championStats JS object is modelled as an insertion-ordered
  association list from champion id to record; property update mutates
  the (unique) slot of a key, modelled as first-occurrence update.
-/

namespace CounterFinder

/-- The five lanes used by the extractor's laneGroups object, in its
insertion (iteration) order TOP, MIDDLE, BOTTOM, UTILITY, JUNGLE. -/
inductive Lane where
  | TOP
  | MIDDLE
  | BOTTOM
  | UTILITY
  | JUNGLE
deriving DecidableEq, Repr

/-- One entry of match.info.participants, with the fields the collector
and extractor read.  Absent JS fields are modelled as none. -/
structure Participant where
  championId : ℕ
  championName : String
  teamPosition : Option String
  role : Option String
  teamId : ℕ
  win : Bool
deriving DecidableEq, Repr

/-- The info object of a Riot match payload (fields read by the code). -/
structure MatchInfo where
  gameDuration : ℤ
  gameMode : String
  queueId : ℕ
  participants : List Participant
deriving DecidableEq, Repr

/-- A fetched match payload: metadata.matchId plus an optional info
object (isValidMatch rejects a payload whose info is missing). -/
structure MatchRecord where
  matchId : String
  info : Option MatchInfo
deriving DecidableEq, Repr

/-- Source isValidMatch: queueId 420, CLASSIC mode, duration within
900..3600 seconds inclusive, and exactly 10 participants. -/
def isValidMatch (m : MatchRecord) : Bool :=
  match m.info with
  | none => false
  | some info =>
      queueCheck info
where
  queueCheck (info : MatchInfo) : Bool :=
    info.queueId == 420 &&
    info.gameMode == "CLASSIC" &&
    decide (900 ≤ info.gameDuration) &&
    decide (info.gameDuration ≤ 3600) &&
    info.participants.length == 10

/-- The explicit-position test of determineLane: a teamPosition string
is accepted only when it is one of the five known lanes. -/
def laneOfString : String → Option Lane
  | "TOP" => some .TOP
  | "MIDDLE" => some .MIDDLE
  | "BOTTOM" => some .BOTTOM
  | "UTILITY" => some .UTILITY
  | "JUNGLE" => some .JUNGLE
  | _ => none

/-- The fixed role to lane fallback table of determineLane. -/
def roleMapping : String → Option Lane
  | "SOLO" => some .TOP
  | "DUO" => some .MIDDLE
  | "DUO_CARRY" => some .BOTTOM
  | "DUO_SUPPORT" => some .UTILITY
  | "NONE" => some .JUNGLE
  | _ => none

/-- Source determineLane: prefer a teamPosition that is one of the five
known lanes, otherwise map the role field through roleMapping,
otherwise classify the participant to no lane at all. -/
def determineLane (p : Participant) : Option Lane :=
  match p.teamPosition.bind laneOfString with
  | some l => some l
  | none => p.role.bind roleMapping

/-- One side of an extracted matchup (champion1 / champion2 payload). -/
structure ChampSide where
  id : ℕ
  name : String
  win : Bool
  teamId : ℕ
deriving DecidableEq, Repr

/-- An extracted matchup observation, one per lane with exactly two
classified participants. -/
structure Matchup where
  matchId : String
  lane : Lane
  champion1 : ChampSide
  champion2 : ChampSide
deriving DecidableEq, Repr

/-- The participant group collected for one lane: the participants of
the match classified to that lane, in participant order. -/
def laneGroup (ps : List Participant) (l : Lane) : List Participant :=
  ps.filter (fun p => determineLane p == some l)

/-- Projection of a participant to a matchup side. -/
def mkSide (p : Participant) : ChampSide :=
  ⟨p.championId, p.championName, p.win, p.teamId⟩

/-- The per-lane emission step of extractMatchupData: exactly one
observation when the lane group has exactly two members. -/
def extractLane (mid : String) (ps : List Participant) (l : Lane) : List Matchup :=
  match laneGroup ps l with
  | [p1, p2] => [⟨mid, l, mkSide p1, mkSide p2⟩]
  | _ => []

/-- Iteration order of Object.entries over the laneGroups object. -/
def lanesInOrder : List Lane := [.TOP, .MIDDLE, .BOTTOM, .UTILITY, .JUNGLE]

/-- The per-match part of extractMatchupData. -/
def extractOne (m : MatchRecord) : List Matchup :=
  match m.info with
  | none => []
  | some info => lanesInOrder.foldl (fun a l => a ++ extractLane m.matchId info.participants l) []

/-- Source extractMatchupData over a list of matches. -/
def extractMatchupData (ms : List MatchRecord) : List Matchup :=
  ms.foldl (fun acc m => acc ++ extractOne m) []

/-- A discovered player as consumed by collectRankedMatches. -/
structure Player where
  summonerId : String
  puuid : String
deriving DecidableEq, Repr

/-- The network oracle of one collection run: the match-id list
returned for a player's puuid and the match payload returned for a
match id (none models a request that throws). -/
structure CollectEnv where
  matchIdsOf : String → Option (List String)
  fetchMatch : String → Option MatchRecord

/-- The mutable state of collectRankedMatches, plus the trace of match
ids for which a match-detail request was actually issued. -/
structure CollectState where
  allMatches : List MatchRecord
  seen : List String
  fetchLog : List String
deriving DecidableEq, Repr

/-- The body of the inner for loop of collectRankedMatches: stop at the
target, skip ids already seen, fetch, and accept (recording the id as
seen) only a payload that passes isValidMatch. -/
def processMatchId (env : CollectEnv) (target : ℕ) (st : CollectState) (mid : String) :
    CollectState :=
  if target ≤ st.allMatches.length then st
  else if mid ∈ st.seen then st
  else
    match env.fetchMatch mid with
    | none => { st with fetchLog := st.fetchLog ++ [mid] }
    | some m =>
        if isValidMatch m then
          { allMatches := st.allMatches ++ [m]
            seen := st.seen ++ [mid]
            fetchLog := st.fetchLog ++ [mid] }
        else
          { st with fetchLog := st.fetchLog ++ [mid] }

/-- The body of the outer for loop of collectRankedMatches: stop at the
target, fetch the player's recent ranked match ids (a failure skips the
player), and process each id. -/
def processPlayer (env : CollectEnv) (target : ℕ) (st : CollectState) (p : Player) :
    CollectState :=
  if target ≤ st.allMatches.length then st
  else
    match env.matchIdsOf p.puuid with
    | none => st
    | some mids => mids.foldl (processMatchId env target) st

/-- Source collectRankedMatches: target count min 1000 (10 per player),
run-scoped seen set and accepted-match accumulator. -/
def collectRankedMatches (env : CollectEnv) (players : List Player) : CollectState :=
  let target := min 1000 (players.length * 10)
  players.foldl (processPlayer env target) ⟨[], [], []⟩

/-- Source checkRateLimit as a pure transition: given the clock and the
tracked request log, it prunes entries older than the 2-minute window,
emits the sequence of imposed sleeps (1100 ms when the 1-second window
already holds 20 requests, then 120000 ms with a log reset when the
2-minute window holds 100), and returns the surviving log. -/
def checkRateLimit (now : ℤ) (requests : List ℤ) : List ℕ × List ℤ :=
  let cleaned := requests.filter (fun t => decide (now - 120000 < t))
  let recentRequests := (cleaned.filter (fun t => decide (now - 1000 < t))).length
  let totalRequests := cleaned.length
  let sleeps1 : List ℕ := if 20 ≤ recentRequests then [1100] else []
  if 100 ≤ totalRequests then (sleeps1 ++ [120000], [])
  else (sleeps1, cleaned)

/-- One rate-limited request at clock time t: run checkRateLimit, then
record the grant timestamp (taken after the imposed sleeps) in the log,
as makeRequest records Date.now() right after its fetch resolves. -/
def acquireAndRecord (reqs : List ℤ) (t : ℤ) : List ℕ × List ℤ :=
  let r := checkRateLimit t reqs
  (r.1, r.2 ++ [t + (r.1.foldl (fun a b => a + b) 0 : ℕ)])

/-- An HTTP response as observed by makeRequest: the status code, the
parsed Retry-After header in seconds when present, and the JSON body
(abstracted to a string). -/
structure HttpResponse where
  status : ℕ
  retryAfter : Option ℕ
  body : String
deriving DecidableEq, Repr

/-- The externally visible events of one makeRequest invocation: the
rate-limiter gate, a network fetch of a url, and a suspension. -/
inductive FetchEvent where
  | check
  | fetchUrl (url : String)
  | sleep (ms : ℕ)
deriving DecidableEq, Repr

/-- Source makeRequest driven by the finite stream of responses the
network will return: every attempt first passes checkRateLimit, a 429
response suspends for Retry-After seconds (default 1) and reissues the
identical request against the rest of the stream, a 2xx response
returns its body, any other response throws (none).  An exhausted
stream ends the trace after the rate-limit gate of the next attempt. -/
def makeRequest (url : String) : List HttpResponse → List FetchEvent × Option String
  | [] => ([.check], none)
  | r :: rest =>
      if r.status = 429 then
        let retryAfter := (r.retryAfter.getD 1) * 1000
        let tail := makeRequest url rest
        (.check :: .fetchUrl url :: .sleep retryAfter :: tail.1, tail.2)
      else if 200 ≤ r.status ∧ r.status < 300 then
        ([.check, .fetchUrl url], some r.body)
      else
        ([.check, .fetchUrl url], none)

/-- Decides that every network fetch in a trace is immediately preceded
by a rate-limiter check. -/
def checkBeforeFetch : List FetchEvent → Bool
  | [] => true
  | [.check] => true
  | .check :: .fetchUrl _ :: rest2 => checkBeforeFetch rest2
  | .check :: e :: rest => checkBeforeFetch (e :: rest)
  | .fetchUrl _ :: _ => false
  | .sleep _ :: rest => checkBeforeFetch rest

open Classical

/-- The counter strength classes produced by the engine. -/
inductive Strength where
  | INSUFFICIENT_DATA
  | NEUTRAL
  | SOFT_COUNTER
  | STRONG_COUNTER
  | HARD_COUNTER
deriving DecidableEq, Repr

/-- Source normalCDF: the approximate cumulative normal distribution
function (1 + sign(x) * sqrt(1 - exp(-2 x x / pi))) / 2, over the
reals in place of IEEE doubles. -/
noncomputable def normalCDF (x : ℝ) : ℝ :=
  (1 + Real.sign x * Real.sqrt (1 - Real.exp (-2 * x * x / Real.pi))) / 2

/-- Result record of calculateStatisticalSignificance. -/
structure Significance where
  isSignificant : Prop
  pValue : ℝ
  zScore : ℝ

/-- Source calculateStatisticalSignificance: standard error
sqrt(base (1 - base) / n), z score, two-sided p value through
normalCDF, and significance at p below 0.05.  The source defaults
baseWinRate to 0.5 and every call site uses that default. -/
noncomputable def calculateStatisticalSignificance
    (winRate : ℚ) (sampleSize : ℕ) (baseWinRate : ℚ) : Significance :=
  let standardError : ℝ := Real.sqrt (((baseWinRate * (1 - baseWinRate) : ℚ) : ℝ) / sampleSize)
  let zScore : ℝ := (((winRate : ℝ)) - ((baseWinRate : ℝ))) / standardError
  let pValue : ℝ := 2 * (1 - normalCDF |zScore|)
  ⟨pValue < 0.05, pValue, zScore⟩

/-- Source classifyCounterStrength: INSUFFICIENT_DATA for a
non-significant or undersized sample, otherwise thresholds on the
absolute deviation of the win rate from one half. -/
noncomputable def classifyCounterStrength
    (winRate : ℚ) (sampleSize : ℕ) (significance : Significance) : Strength :=
  if ¬ significance.isSignificant ∨ sampleSize < 30 then .INSUFFICIENT_DATA
  else
    let winRateDiff := |winRate - 0.5|
    if winRateDiff ≥ 0.15 then .HARD_COUNTER
    else if winRateDiff ≥ 0.10 then .STRONG_COUNTER
    else if winRateDiff ≥ 0.06 then .SOFT_COUNTER
    else .NEUTRAL

/-- One accumulated directional matchup sample. -/
structure MatchupStat where
  wins : ℕ
  total : ℕ
deriving DecidableEq, Repr

/-- Key of the matchupStats map: row champion id, opponent champion id
and lane, standing for the source's string key row_vs_opponent_lane. -/
abbrev MKey : Type := ℕ × ℕ × Lane

/-- An entry of a relationship list.  The enemyWinRate field is present
(some) only on the reciprocal counteredBy entries, mirroring the field
added by the object spread in the source. -/
structure CounterRecord where
  championId : ℕ
  championName : String
  lane : Lane
  matchupWinRate : ℚ
  sampleSize : ℕ
  significance : ℝ
  counterStrength : Strength
  enemyWinRate : Option ℚ

/-- Overall per-champion counters. -/
structure OverallStats where
  totalGames : ℕ
  wins : ℕ
  winRate : ℚ
  isReliable : Bool

/-- The three relationship lists of a champion. -/
structure CounterRelationships where
  strongCounters : List CounterRecord
  counters : List CounterRecord
  counteredBy : List CounterRecord

/-- An entry of the champions catalogue passed to the engine. -/
structure Champion where
  id : ℕ
  name : String
  key : String
deriving DecidableEq, Repr

/-- The per-champion output record of the engine (the lanePerformance
field of the source is initialized empty and never populated by the
engine, so it is omitted). -/
structure ChampionStat where
  id : ℕ
  name : String
  key : String
  overallStats : OverallStats
  counterRelationships : CounterRelationships

/-- The championStats JS object: an insertion-ordered association list
from champion id to record. -/
abbrev ChampionStats : Type := List (ℕ × ChampionStat)

/-- Property read championStats[cid]. -/
def lookupStat (cs : ChampionStats) (cid : ℕ) : Option ChampionStat :=
  (cs.find? (fun e => e.1 == cid)).map (fun e => e.2)

/-- Property update championStats[cid]: rewrite the slot of cid when it
exists (the first occurrence, the only one a JS object can hold) and do
nothing otherwise, as the optional-chained mutations do. -/
def modifyStat (cs : ChampionStats) (cid : ℕ) (f : ChampionStat → ChampionStat) :
    ChampionStats :=
  match cs with
  | [] => []
  | e :: rest =>
      if e.1 = cid then (e.1, f e.2) :: rest
      else e :: modifyStat rest cid f

/-- Source updateMatchupStat: create a zero sample for an unseen key,
then increment total and conditionally wins.  The first occurrence of
the key is the Map's unique slot. -/
def updateMatchupStat (statsMap : List (MKey × MatchupStat)) (key : MKey) (isWin : Bool) :
    List (MKey × MatchupStat) :=
  match statsMap with
  | [] => [(key, ⟨if isWin then 1 else 0, 1⟩)]
  | e :: rest =>
      if e.1 = key then
        (e.1, ⟨e.2.wins + (if isWin then 1 else 0), e.2.total + 1⟩) :: rest
      else e :: updateMatchupStat rest key isWin

/-- Source updateOverallStats: increment totalGames and conditionally
wins of championStats[championId] when that champion is known. -/
def updateOverallStats (cs : ChampionStats) (championId : ℕ) (isWin : Bool) :
    ChampionStats :=
  modifyStat cs championId (fun s =>
    { s with overallStats :=
        { s.overallStats with
            totalGames := s.overallStats.totalGames + 1
            wins := s.overallStats.wins + (if isWin then 1 else 0) } })

/-- The two directional matchup-sample updates done for one
observation (key1 and key2 of the source loop body). -/
def updateMatchupPair (ms : List (MKey × MatchupStat)) (mu : Matchup) :
    List (MKey × MatchupStat) :=
  updateMatchupStat
    (updateMatchupStat ms (mu.champion1.id, mu.champion2.id, mu.lane) mu.champion1.win)
    (mu.champion2.id, mu.champion1.id, mu.lane) mu.champion2.win

/-- The two overall-counter updates done for one observation. -/
def updateOverallPair (cs : ChampionStats) (mu : Matchup) : ChampionStats :=
  updateOverallStats
    (updateOverallStats cs mu.champion1.id mu.champion1.win)
    mu.champion2.id mu.champion2.win

/-- The body of the matchups.forEach loop of
calculateCounterRelationships: both directional matchup samples and
both champions' overall counters. -/
def accumStep (acc : List (MKey × MatchupStat) × ChampionStats) (mu : Matchup) :
    List (MKey × MatchupStat) × ChampionStats :=
  (updateMatchupPair acc.1 mu, updateOverallPair acc.2 mu)

/-- The zero-initialized championStats object, one slot per catalogue
entry in catalogue order. -/
def initChampionStats (champions : List Champion) : ChampionStats :=
  champions.map (fun c =>
    (c.id,
      { id := c.id
        name := c.name
        key := c.key
        overallStats := { totalGames := 0, wins := 0, winRate := 0.5, isReliable := false }
        counterRelationships := { strongCounters := [], counters := [], counteredBy := [] } }))

/-- Append to the strongCounters list of a champion record. -/
def pushStrong (cd : CounterRecord) (s : ChampionStat) : ChampionStat :=
  { s with counterRelationships :=
      { s.counterRelationships with
          strongCounters := s.counterRelationships.strongCounters ++ [cd] } }

/-- Append to the counters list of a champion record. -/
def pushCounter (cd : CounterRecord) (s : ChampionStat) : ChampionStat :=
  { s with counterRelationships :=
      { s.counterRelationships with
          counters := s.counterRelationships.counters ++ [cd] } }

/-- Append to the counteredBy list of a champion record. -/
def pushCounteredBy (cd : CounterRecord) (s : ChampionStat) : ChampionStat :=
  { s with counterRelationships :=
      { s.counterRelationships with
          counteredBy := s.counterRelationships.counteredBy ++ [cd] } }

/-- The body of the matchupStats.forEach loop of
processCounterRelationships, for the sample of row champion cid against
vsCid in a lane: skip undersized samples, skip non-significant samples,
append to the row champion's strongCounters or counters list at win
rates of at least 0.65 and 0.56, and at a win rate of at most 1 - 0.56
append the reciprocal entry (enemy win rate and mirrored matchup win
rate) to the opponent's counteredBy list. -/
noncomputable def processKey (cs : ChampionStats) (e : MKey × MatchupStat) : ChampionStats :=
  let cid := e.1.1
  let vsCid := e.1.2.1
  let lane := e.1.2.2
  let stat := e.2
  if stat.total < 30 then cs
  else
    let winRate : ℚ := (stat.wins : ℚ) / (stat.total : ℚ)
    let significance := calculateStatisticalSignificance winRate stat.total 0.5
    if significance.isSignificant then
      let counterData : CounterRecord :=
        { championId := vsCid
          championName := ((lookupStat cs vsCid).map (fun s => s.name)).getD "Unknown"
          lane := lane
          matchupWinRate := winRate
          sampleSize := stat.total
          significance := significance.pValue
          counterStrength := classifyCounterStrength winRate stat.total significance
          enemyWinRate := none }
      let cs1 :=
        if winRate ≥ 0.65 then modifyStat cs cid (pushStrong counterData)
        else if winRate ≥ 0.56 then modifyStat cs cid (pushCounter counterData)
        else cs
      if winRate ≤ 1 - 0.56 then
        let reverseCounterData : CounterRecord :=
          { counterData with
              championId := cid
              championName := ((lookupStat cs1 cid).map (fun s => s.name)).getD "Unknown"
              enemyWinRate := some winRate
              matchupWinRate := 1 - winRate }
        modifyStat cs1 vsCid (pushCounteredBy reverseCounterData)
      else cs1
    else cs

/-- The per-record final pass: for a champion with at least one game,
recompute the overall win rate and the reliability flag. -/
def finalizeOne (s : ChampionStat) : ChampionStat :=
  if 0 < s.overallStats.totalGames then
    { s with overallStats :=
        { s.overallStats with
            winRate := (s.overallStats.wins : ℚ) / (s.overallStats.totalGames : ℚ)
            isReliable := decide (30 ≤ s.overallStats.totalGames) } }
  else s

/-- The final pass of processCounterRelationships over every champion
record. -/
def finalizeStats (cs : ChampionStats) : ChampionStats :=
  cs.map (fun e => (e.1, finalizeOne e.2))

/-- Source processCounterRelationships over the accumulated samples. -/
noncomputable def processCounterRelationships
    (matchupStats : List (MKey × MatchupStat)) (championStats : ChampionStats) :
    ChampionStats :=
  finalizeStats (matchupStats.foldl processKey championStats)

/-- Source calculateCounterRelationships: initialize, accumulate every
observation, then derive the relationship lists and final overall
statistics. -/
noncomputable def calculateCounterRelationships
    (matchups : List Matchup) (champions : List Champion) : ChampionStats :=
  let acc := matchups.foldl accumStep ([], initChampionStats champions)
  processCounterRelationships acc.1 acc.2

/-- The matchup-sample component of the accumulation pass on its own
(it never depends on the championStats component). -/
def accumMatchupStats (matchups : List Matchup) : List (MKey × MatchupStat) :=
  matchups.foldl updateMatchupPair []

/-- Sum of the totals of the samples whose row side is a champion. -/
def rowTotalSum (cid : ℕ) (ms : List (MKey × MatchupStat)) : ℕ :=
  ((ms.filter (fun e => e.1.1 == cid)).map (fun e => e.2.total)).sum

/-- Modelled from the spec: the approximate normal CDF written as the
spec writes it, with the squared argument. -/
noncomputable def specNormalCDF (x : ℝ) : ℝ :=
  (1 + Real.sign x * Real.sqrt (1 - Real.exp (-2 * x ^ 2 / Real.pi))) / 2

/-- Modelled from the spec: the strength class as a pure function of
the absolute deviation of the win rate from one half. -/
def specStrengthOf (d : ℚ) : Strength :=
  if d ≥ 0.15 then .HARD_COUNTER
  else if d ≥ 0.10 then .STRONG_COUNTER
  else if d ≥ 0.06 then .SOFT_COUNTER
  else .NEUTRAL

/-- Modelled from the spec: lane classification as the spec words it,
an explicit position field that is one of the five known lanes,
otherwise the fixed role table, otherwise no lane. -/
def specLaneOf (p : Participant) : Option Lane :=
  match p.teamPosition with
  | some "TOP" => some .TOP
  | some "MIDDLE" => some .MIDDLE
  | some "BOTTOM" => some .BOTTOM
  | some "UTILITY" => some .UTILITY
  | some "JUNGLE" => some .JUNGLE
  | _ =>
      match p.role with
      | some "SOLO" => some .TOP
      | some "DUO" => some .MIDDLE
      | some "DUO_CARRY" => some .BOTTOM
      | some "DUO_SUPPORT" => some .UTILITY
      | some "NONE" => some .JUNGLE
      | _ => none

lemma foldl_inv {α β : Type _} (P : α → Prop) (f : α → β → α) (l : List β) (init : α)
    (h0 : P init) (hstep : ∀ st b, P st → P (f st b)) : P (l.foldl f init) := by
  induction l generalizing init with
  | nil => exact h0
  | cons b rest ih => exact ih (f init b) (hstep init b h0)

lemma processMatchId_valid_inv (env : CollectEnv) (target : ℕ) (st : CollectState)
    (mid : String) (h : ∀ m ∈ st.allMatches, isValidMatch m = true) :
    ∀ m ∈ (processMatchId env target st mid).allMatches, isValidMatch m = true := by
  unfold processMatchId
  split
  · exact h
  · split
    · exact h
    · cases hf : env.fetchMatch mid with
      | none => exact h
      | some m0 =>
          simp only
          split
          · intro m hm
            rcases List.mem_append.mp hm with hm1 | hm2
            · exact h m hm1
            · rcases List.mem_singleton.mp hm2 with rfl
              assumption
          · exact h

lemma processPlayer_valid_inv (env : CollectEnv) (target : ℕ) (st : CollectState)
    (p : Player) (h : ∀ m ∈ st.allMatches, isValidMatch m = true) :
    ∀ m ∈ (processPlayer env target st p).allMatches, isValidMatch m = true := by
  unfold processPlayer
  split
  · exact h
  · cases hf : env.matchIdsOf p.puuid with
    | none => exact h
    | some mids =>
        simp only
        exact foldl_inv (fun s => ∀ m ∈ s.allMatches, isValidMatch m = true)
          (processMatchId env target) mids st h
          (fun s mid hs => processMatchId_valid_inv env target s mid hs)

/-- C4: a fetched match payload with an info object is accepted exactly
when its queue id is 420, its game mode is CLASSIC, its duration lies
in the inclusive range 900 to 3600 seconds and it has exactly ten
participants; and every match accumulated by collectRankedMatches
passes isValidMatch. -/
theorem isValidMatch_iff_and_collect_valid :
    (∀ (m : MatchRecord) (info : MatchInfo), m.info = some info →
      (isValidMatch m = true ↔
        (info.queueId = 420 ∧ info.gameMode = "CLASSIC" ∧ 900 ≤ info.gameDuration ∧
         info.gameDuration ≤ 3600 ∧ info.participants.length = 10))) ∧
    (∀ (env : CollectEnv) (players : List Player),
      ∀ m ∈ (collectRankedMatches env players).allMatches, isValidMatch m = true) := by
  constructor
  · intro m info hinfo
    unfold isValidMatch
    rw [hinfo]
    unfold isValidMatch.queueCheck
    simp [Bool.and_eq_true, and_assoc]
  · intro env players
    unfold collectRankedMatches
    exact foldl_inv (fun s => ∀ m ∈ s.allMatches, isValidMatch m = true)
      (processPlayer env (min 1000 (players.length * 10))) players ⟨[], [], []⟩
      (by intro m hm; simp at hm)
      (fun s p hs => processPlayer_valid_inv env _ s p hs)

/-- Witness for the validity characterization at a concrete payload. -/
theorem isValidMatch_iff_witness :
    isValidMatch ⟨"KR_1", some ⟨1800, "CLASSIC", 420, List.replicate 10
        ⟨1, "A", some "TOP", none, 100, true⟩⟩⟩ = true := by
  have h := isValidMatch_iff_and_collect_valid.1
      ⟨"KR_1", some ⟨1800, "CLASSIC", 420, List.replicate 10
        ⟨1, "A", some "TOP", none, 100, true⟩⟩⟩
      ⟨1800, "CLASSIC", 420, List.replicate 10 ⟨1, "A", some "TOP", none, 100, true⟩⟩ rfl
  exact h.mpr (by refine ⟨rfl, rfl, by norm_num, by norm_num, by simp⟩)

/-- The collection invariant: every seen id comes from an accepted
fetch, and an id whose fetch yields a valid match is fetched at most
once, exactly once when it is already marked seen. -/
def GoodState (env : CollectEnv) (st : CollectState) : Prop :=
  (∀ mid ∈ st.seen, ∃ m, env.fetchMatch mid = some m ∧ isValidMatch m = true) ∧
  (∀ mid m, env.fetchMatch mid = some m → isValidMatch m = true →
    st.fetchLog.count mid ≤ 1 ∧ (st.fetchLog.count mid = 1 ↔ mid ∈ st.seen))

lemma processMatchId_good (env : CollectEnv) (target : ℕ) (st : CollectState)
    (mid' : String) (h : GoodState env st) :
    GoodState env (processMatchId env target st mid') := by
  obtain ⟨hseen, hcnt⟩ := h
  unfold processMatchId
  split
  · exact ⟨hseen, hcnt⟩
  · rename ¬ target ≤ st.allMatches.length => htgt
    split
    · exact ⟨hseen, hcnt⟩
    · rename ¬ mid' ∈ st.seen => hnot
      cases hf : env.fetchMatch mid' with
      | none =>
          refine ⟨hseen, ?_⟩
          intro mid m hm hv
          have hne : mid ≠ mid' := by
            intro he; rw [he, hf] at hm; exact Option.noConfusion hm
          have := hcnt mid m hm hv
          simpa [List.count_append, hne] using this
      | some m0 =>
          simp only
          split
          · rename isValidMatch m0 = true => hv0
            constructor
            · intro mid hm
              rcases List.mem_append.mp hm with h1 | h2
              · exact hseen mid h1
              · rcases List.mem_singleton.mp h2 with rfl
                exact ⟨m0, hf, hv0⟩
            · intro mid m hm hv
              by_cases he : mid = mid'
              · subst he
                rw [hm] at hf
                obtain rfl : m = m0 := by injection hf
                have h0 := hcnt mid m hm hv
                have hc0 : st.fetchLog.count mid = 0 := by
                  rcases Nat.lt_or_ge (st.fetchLog.count mid) 1 with hlt | hge
                  · omega
                  · exact absurd (h0.2.mp (by omega)) hnot
                constructor
                · simp [List.count_append, hc0]
                · simp [List.count_append, hc0]
              · have h0 := hcnt mid m hm hv
                have : (st.fetchLog ++ [mid']).count mid = st.fetchLog.count mid := by
                  simp [List.count_append, he]
                rw [this]
                refine ⟨h0.1, h0.2.trans ?_⟩
                simp [he]
          · rename ¬ isValidMatch m0 = true => hv0
            refine ⟨hseen, ?_⟩
            intro mid m hm hv
            have hne : mid ≠ mid' := by
              intro he; rw [he, hf] at hm
              obtain rfl : m0 = m := by injection hm
              exact hv0 hv
            have := hcnt mid m hm hv
            simpa [List.count_append, hne] using this

lemma processPlayer_good (env : CollectEnv) (target : ℕ) (st : CollectState)
    (p : Player) (h : GoodState env st) :
    GoodState env (processPlayer env target st p) := by
  unfold processPlayer
  split
  · exact h
  · cases hf : env.matchIdsOf p.puuid with
    | none => exact h
    | some mids =>
        simp only
        exact foldl_inv (GoodState env) (processMatchId env target) mids st h
          (fun s b hs => processMatchId_good env target s b hs)

/-- C2 amended: an identifier enters the run-scoped seen set exactly
when its fetched payload passes validity filtering; consequently an
identifier whose fetch yields a valid match is fetched at most once in
the whole run, while a discarded identifier is not marked seen. -/
theorem collect_seen_iff_accepted :
    ∀ (env : CollectEnv) (players : List Player),
      (∀ mid ∈ (collectRankedMatches env players).seen,
        ∃ m, env.fetchMatch mid = some m ∧ isValidMatch m = true) ∧
      (∀ mid m, env.fetchMatch mid = some m → isValidMatch m = true →
        (collectRankedMatches env players).fetchLog.count mid ≤ 1) := by
  intro env players
  have h : GoodState env (collectRankedMatches env players) := by
    unfold collectRankedMatches
    refine foldl_inv (GoodState env) (processPlayer env (min 1000 (players.length * 10)))
      players ⟨[], [], []⟩ ?_ (fun s p hs => processPlayer_good env _ s p hs)
    constructor
    · intro mid hm; simp at hm
    · intro mid m hm hv
      simp
  exact ⟨h.1, fun mid m hm hv => (h.2 mid m hm hv).1⟩

/-- Witness: a run over one player with one id whose match is valid
fetches the id once and marks it seen. -/
theorem collect_seen_iff_accepted_witness :
    (CollectEnv.mk (fun _ => some ["M1"]) (fun _ => some
        ⟨"M1", some ⟨1800, "CLASSIC", 420, List.replicate 10
          ⟨1, "A", some "TOP", none, 100, true⟩⟩⟩)).fetchMatch "M1" = some
        ⟨"M1", some ⟨1800, "CLASSIC", 420, List.replicate 10
          ⟨1, "A", some "TOP", none, 100, true⟩⟩⟩ ∧
    (collectRankedMatches
        (CollectEnv.mk (fun _ => some ["M1"]) (fun _ => some
          ⟨"M1", some ⟨1800, "CLASSIC", 420, List.replicate 10
            ⟨1, "A", some "TOP", none, 100, true⟩⟩⟩))
        [⟨"s1", "p1"⟩]).fetchLog.count "M1" ≤ 1 := by
  refine ⟨rfl, ?_⟩
  exact (collect_seen_iff_accepted
    (CollectEnv.mk (fun _ => some ["M1"]) (fun _ => some
      ⟨"M1", some ⟨1800, "CLASSIC", 420, List.replicate 10
        ⟨1, "A", some "TOP", none, 100, true⟩⟩⟩))
    [⟨"s1", "p1"⟩]).2 "M1"
    ⟨"M1", some ⟨1800, "CLASSIC", 420, List.replicate 10
      ⟨1, "A", some "TOP", none, 100, true⟩⟩⟩ rfl (by decide)

/-- The oracle of the C2 counterexample: both players list the same
match id and its payload fails validity filtering (queue 430). -/
def c2Env : CollectEnv :=
  ⟨fun _ => some ["M"], fun _ => some ⟨"M", some ⟨1800, "CLASSIC", 430, []⟩⟩⟩

/-- C2 counterexample: with two players both listing the invalid match
id M, the run fetches M twice and never marks it seen, refuting that a
fetched-and-discarded id is in the seen set, and that at most one fetch
is ever issued per identifier. -/
theorem collect_refetches_discarded_id :
    (collectRankedMatches c2Env [⟨"s1", "p1"⟩, ⟨"s2", "p2"⟩]).fetchLog = ["M", "M"] ∧
    (collectRankedMatches c2Env [⟨"s1", "p1"⟩, ⟨"s2", "p2"⟩]).seen = [] ∧
    ¬ (collectRankedMatches c2Env [⟨"s1", "p1"⟩, ⟨"s2", "p2"⟩]).fetchLog.count "M" ≤ 1 := by
  refine ⟨by decide, by decide, by decide⟩

lemma determineLane_eq_specLaneOf (p : Participant) : determineLane p = specLaneOf p := by
  rcases p with ⟨cid, cname, pos, role, tid, win⟩
  cases pos with
  | none =>
      cases role with
      | none => rfl
      | some r =>
          by_cases h1 : r = "SOLO"
          · subst h1; rfl
          by_cases h2 : r = "DUO"
          · subst h2; rfl
          by_cases h3 : r = "DUO_CARRY"
          · subst h3; rfl
          by_cases h4 : r = "DUO_SUPPORT"
          · subst h4; rfl
          by_cases h5 : r = "NONE"
          · subst h5; rfl
          simp [determineLane, specLaneOf, roleMapping, Option.bind, h1, h2, h3, h4, h5]
  | some s =>
      by_cases g1 : s = "TOP"
      · subst g1; rfl
      by_cases g2 : s = "MIDDLE"
      · subst g2; rfl
      by_cases g3 : s = "BOTTOM"
      · subst g3; rfl
      by_cases g4 : s = "UTILITY"
      · subst g4; rfl
      by_cases g5 : s = "JUNGLE"
      · subst g5; rfl
      cases role with
      | none =>
          simp [determineLane, specLaneOf, laneOfString, Option.bind, g1, g2, g3, g4, g5]
      | some r =>
          by_cases h1 : r = "SOLO"
          · subst h1
            simp [determineLane, specLaneOf, laneOfString, roleMapping, Option.bind,
              g1, g2, g3, g4, g5]
          by_cases h2 : r = "DUO"
          · subst h2
            simp [determineLane, specLaneOf, laneOfString, roleMapping, Option.bind,
              g1, g2, g3, g4, g5]
          by_cases h3 : r = "DUO_CARRY"
          · subst h3
            simp [determineLane, specLaneOf, laneOfString, roleMapping, Option.bind,
              g1, g2, g3, g4, g5]
          by_cases h4 : r = "DUO_SUPPORT"
          · subst h4
            simp [determineLane, specLaneOf, laneOfString, roleMapping, Option.bind,
              g1, g2, g3, g4, g5]
          by_cases h5 : r = "NONE"
          · subst h5
            simp [determineLane, specLaneOf, laneOfString, roleMapping, Option.bind,
              g1, g2, g3, g4, g5]
          simp [determineLane, specLaneOf, laneOfString, roleMapping, Option.bind,
            g1, g2, g3, g4, g5, h1, h2, h3, h4, h5]

lemma extractLane_lane (mid : String) (ps : List Participant) (l : Lane) :
    ∀ mu ∈ extractLane mid ps l, mu.lane = l := by
  unfold extractLane
  split
  · intro mu hmu
    rcases List.mem_singleton.mp hmu with rfl
    rfl
  · intro mu hmu
    simp at hmu

lemma extractLane_length (mid : String) (ps : List Participant) (l : Lane) :
    (extractLane mid ps l).length = if (laneGroup ps l).length = 2 then 1 else 0 := by
  unfold extractLane
  split
  · rename_i p1 p2 heq
    rw [heq]
    simp
  · rename_i hne
    have hl : (laneGroup ps l).length ≠ 2 := by
      intro h2
      rcases List.length_eq_two.mp h2 with ⟨a, b, hab⟩
      exact hne a b hab
    simp [hl]

lemma filter_extractLane_self (mid : String) (ps : List Participant) (l : Lane) :
    (extractLane mid ps l).filter (fun mu => mu.lane == l) = extractLane mid ps l := by
  rw [List.filter_eq_self]
  intro mu hmu
  simp [extractLane_lane mid ps l mu hmu]

lemma filter_extractLane_other (mid : String) (ps : List Participant) (l l' : Lane)
    (h : l' ≠ l) :
    (extractLane mid ps l').filter (fun mu => mu.lane == l) = [] := by
  rw [List.filter_eq_nil_iff]
  intro mu hmu
  simp [extractLane_lane mid ps l' mu hmu, h]

/-- C5: participants are classified exactly as the spec's two-tier
rule (explicit position among the five lanes, else the fixed role
table, else excluded), and a match emits exactly one observation for a
lane whose classified group has exactly two members and none for any
other group size. -/
theorem extract_one_observation_per_paired_lane :
    (∀ p : Participant, determineLane p = specLaneOf p) ∧
    (∀ (m : MatchRecord) (info : MatchInfo) (l : Lane), m.info = some info →
      ((extractOne m).filter (fun mu => mu.lane == l)).length =
        if (laneGroup info.participants l).length = 2 then 1 else 0) := by
  constructor
  · exact determineLane_eq_specLaneOf
  · intro m info l hinfo
    unfold extractOne
    rw [hinfo]
    simp only [lanesInOrder, List.foldl_cons, List.foldl_nil, List.nil_append]
    rw [List.filter_append, List.filter_append, List.filter_append, List.filter_append]
    cases l with
    | TOP =>
        rw [filter_extractLane_self,
          filter_extractLane_other _ _ _ _ (by decide),
          filter_extractLane_other _ _ _ _ (by decide),
          filter_extractLane_other _ _ _ _ (by decide),
          filter_extractLane_other _ _ _ _ (by decide)]
        simp [extractLane_length]
    | MIDDLE =>
        rw [filter_extractLane_self,
          filter_extractLane_other _ _ _ _ (by decide),
          filter_extractLane_other _ _ _ _ (by decide),
          filter_extractLane_other _ _ _ _ (by decide),
          filter_extractLane_other _ _ _ _ (by decide)]
        simp [extractLane_length]
    | BOTTOM =>
        rw [filter_extractLane_self,
          filter_extractLane_other _ _ _ _ (by decide),
          filter_extractLane_other _ _ _ _ (by decide),
          filter_extractLane_other _ _ _ _ (by decide),
          filter_extractLane_other _ _ _ _ (by decide)]
        simp [extractLane_length]
    | UTILITY =>
        rw [filter_extractLane_self,
          filter_extractLane_other _ _ _ _ (by decide),
          filter_extractLane_other _ _ _ _ (by decide),
          filter_extractLane_other _ _ _ _ (by decide),
          filter_extractLane_other _ _ _ _ (by decide)]
        simp [extractLane_length]
    | JUNGLE =>
        rw [filter_extractLane_self,
          filter_extractLane_other _ _ _ _ (by decide),
          filter_extractLane_other _ _ _ _ (by decide),
          filter_extractLane_other _ _ _ _ (by decide),
          filter_extractLane_other _ _ _ _ (by decide)]
        simp [extractLane_length]

/-- Witness: a two-participant TOP lane yields exactly one TOP
observation and an empty JUNGLE group yields none. -/
theorem extract_one_observation_witness :
    (⟨"W", some ⟨1800, "CLASSIC", 420,
        [⟨1, "A", some "TOP", none, 100, true⟩,
         ⟨2, "B", some "TOP", none, 200, false⟩]⟩⟩ : MatchRecord).info = some
      ⟨1800, "CLASSIC", 420,
        [⟨1, "A", some "TOP", none, 100, true⟩,
         ⟨2, "B", some "TOP", none, 200, false⟩]⟩ ∧
    ((extractOne ⟨"W", some ⟨1800, "CLASSIC", 420,
        [⟨1, "A", some "TOP", none, 100, true⟩,
         ⟨2, "B", some "TOP", none, 200, false⟩]⟩⟩).filter
      (fun mu => mu.lane == Lane.TOP)).length = 1 ∧
    ((extractOne ⟨"W", some ⟨1800, "CLASSIC", 420,
        [⟨1, "A", some "TOP", none, 100, true⟩,
         ⟨2, "B", some "TOP", none, 200, false⟩]⟩⟩).filter
      (fun mu => mu.lane == Lane.JUNGLE)).length = 0 := by
  refine ⟨rfl, ?_, ?_⟩
  · have h := extract_one_observation_per_paired_lane.2
      ⟨"W", some ⟨1800, "CLASSIC", 420,
        [⟨1, "A", some "TOP", none, 100, true⟩,
         ⟨2, "B", some "TOP", none, 200, false⟩]⟩⟩
      ⟨1800, "CLASSIC", 420,
        [⟨1, "A", some "TOP", none, 100, true⟩,
         ⟨2, "B", some "TOP", none, 200, false⟩]⟩ Lane.TOP rfl
    rw [h]
    decide
  · have h := extract_one_observation_per_paired_lane.2
      ⟨"W", some ⟨1800, "CLASSIC", 420,
        [⟨1, "A", some "TOP", none, 100, true⟩,
         ⟨2, "B", some "TOP", none, 200, false⟩]⟩⟩
      ⟨1800, "CLASSIC", 420,
        [⟨1, "A", some "TOP", none, 100, true⟩,
         ⟨2, "B", some "TOP", none, 200, false⟩]⟩ Lane.JUNGLE rfl
    rw [h]
    decide

/-- The all-429 response used by the unbounded-retry statement. -/
def resp429 : HttpResponse := ⟨429, none, ""⟩

lemma makeRequest_on_429 (url : String) (r : HttpResponse) (rest : List HttpResponse)
    (h : r.status = 429) :
    makeRequest url (r :: rest) =
      (.check :: .fetchUrl url :: .sleep ((r.retryAfter.getD 1) * 1000) ::
          (makeRequest url rest).1,
        (makeRequest url rest).2) := by
  conv_lhs => rw [makeRequest]
  rw [if_pos h]

/-- C7: a 429 response makes makeRequest suspend for the advertised
Retry-After seconds (1 second when the header is absent) and reissue
the identical request after a fresh rate-limit check; retries survive
any number of consecutive 429 responses; and in every trace each
network fetch is immediately preceded by a rate-limiter check. -/
theorem makeRequest_retries_on_429 :
    (∀ (url : String) (r : HttpResponse) (rest : List HttpResponse), r.status = 429 →
      makeRequest url (r :: rest) =
        (.check :: .fetchUrl url :: .sleep ((r.retryAfter.getD 1) * 1000) ::
            (makeRequest url rest).1,
          (makeRequest url rest).2)) ∧
    (∀ (url : String) (n : ℕ) (rest : List HttpResponse),
      (makeRequest url (List.replicate n resp429 ++ rest)).2 =
        (makeRequest url rest).2) ∧
    (∀ (url : String) (responses : List HttpResponse),
      checkBeforeFetch (makeRequest url responses).1 = true) := by
  refine ⟨makeRequest_on_429, ?_, ?_⟩
  · intro url n rest
    induction n with
    | zero => simp
    | succ k ih =>
        rw [List.replicate_succ, List.cons_append,
          makeRequest_on_429 url resp429 (List.replicate k resp429 ++ rest) rfl]
        exact ih
  · intro url responses
    induction responses with
    | nil => rfl
    | cons r rest ih =>
        by_cases h429 : r.status = 429
        · rw [makeRequest_on_429 url r rest h429]
          simp only [checkBeforeFetch]
          exact ih
        · unfold makeRequest
          rw [if_neg h429]
          by_cases hok : 200 ≤ r.status ∧ r.status < 300
          · rw [if_pos hok]
            rfl
          · rw [if_neg hok]
            rfl

/-- Witness: one 429 with Retry-After 2 then a 200 gives the trace
check, fetch, sleep 2000 ms, check, fetch, and the successful body. -/
theorem makeRequest_retries_witness :
    (⟨429, some 2, ""⟩ : HttpResponse).status = 429 ∧
    makeRequest "u" [⟨429, some 2, ""⟩, ⟨200, none, "ok"⟩] =
      ([.check, .fetchUrl "u", .sleep 2000, .check, .fetchUrl "u"], some "ok") ∧
    checkBeforeFetch (makeRequest "u" [⟨429, some 2, ""⟩, ⟨200, none, "ok"⟩]).1 = true := by
  refine ⟨rfl, ?_, makeRequest_retries_on_429.2.2 "u" [⟨429, some 2, ""⟩, ⟨200, none, "ok"⟩]⟩
  rw [makeRequest_retries_on_429.1 "u" ⟨429, some 2, ""⟩ [⟨200, none, "ok"⟩] rfl]
  rfl

/-- The trace of per-call imposed sleeps over a sequence of request
times, starting from an empty tracked log. -/
def runAcquires (ts : List ℤ) : List (List ℕ) × List ℤ :=
  ts.foldl (fun acc t =>
    let r := acquireAndRecord acc.2 t
    (acc.1 ++ [r.1], r.2)) ([], [])

/-- The 20 request times of the C8 scenario, all within 100 ms. -/
def scen20 : List ℤ := (List.range 20).map (fun i => (5 * i : ℤ))

/-- C8: twenty granted requests inside 100 ms each pass the limiter
with no imposed sleep, the twenty-first call is suspended for 1100 ms;
and whenever the pruned two-minute window holds at least 100 requests
the caller is suspended for the 120000 ms window and the tracked log is
reset to empty. -/
theorem rateLimit_scenario_and_reset :
    ((runAcquires scen20).1 = List.replicate 20 [] ∧
      (acquireAndRecord (runAcquires scen20).2 100).1 = [1100]) ∧
    (∀ (now : ℤ) (reqs : List ℤ),
      100 ≤ (reqs.filter (fun t => decide (now - 120000 < t))).length →
      (checkRateLimit now reqs).2 = [] ∧ (120000 : ℕ) ∈ (checkRateLimit now reqs).1) := by
  constructor
  · constructor
    · decide
    · decide
  · intro now reqs h100
    unfold checkRateLimit
    rw [if_pos h100]
    constructor
    · rfl
    · simp

/-- Witness: a log of one hundred timestamp-zero requests triggers the
two-minute suspension and the reset at clock time zero. -/
theorem rateLimit_reset_witness :
    100 ≤ ((List.replicate 100 (0 : ℤ)).filter
        (fun t => decide ((0 : ℤ) - 120000 < t))).length ∧
    (checkRateLimit 0 (List.replicate 100 (0 : ℤ))).2 = [] ∧
    (120000 : ℕ) ∈ (checkRateLimit 0 (List.replicate 100 (0 : ℤ))).1 := by
  refine ⟨by decide, rateLimit_scenario_and_reset.2 0 (List.replicate 100 (0 : ℤ)) (by decide)⟩

lemma lookupStat_cons (e : ℕ × ChampionStat) (rest : ChampionStats) (cid : ℕ) :
    lookupStat (e :: rest) cid = if e.1 = cid then some e.2 else lookupStat rest cid := by
  by_cases h : e.1 = cid
  · simp [lookupStat, List.find?, h]
  · have hb : (e.1 == cid) = false := beq_eq_false_iff_ne.mpr h
    simp [lookupStat, List.find?, hb, h]

lemma lookupStat_modifyStat (cs : ChampionStats) (cid cid' : ℕ)
    (f : ChampionStat → ChampionStat) :
    lookupStat (modifyStat cs cid' f) cid =
      if cid' = cid then (lookupStat cs cid).map f else lookupStat cs cid := by
  induction cs with
  | nil => simp [modifyStat, lookupStat]
  | cons e rest ih =>
      unfold modifyStat
      by_cases h1 : e.1 = cid'
      · rw [if_pos h1, lookupStat_cons, lookupStat_cons]
        by_cases h2 : e.1 = cid
        · have : cid' = cid := h1 ▸ h2
          simp [h2, this]
        · have : cid' ≠ cid := fun hc => h2 (hc ▸ h1)
          simp [h2, this]
      · rw [if_neg h1, lookupStat_cons, lookupStat_cons, ih]
        by_cases h2 : e.1 = cid
        · have : cid' ≠ cid := fun hc => h1 (h2.trans hc.symm)
          simp [h2, this]
        · simp [h2]

lemma modifyStat_of_not_mem (cs : ChampionStats) (cid : ℕ)
    (f : ChampionStat → ChampionStat) (h : ∀ e ∈ cs, e.1 ≠ cid) :
    modifyStat cs cid f = cs := by
  induction cs with
  | nil => rfl
  | cons e rest ih =>
      unfold modifyStat
      rw [if_neg (h e (by simp))]
      rw [ih (fun x hx => h x (by simp [hx]))]

lemma keys_modifyStat (cs : ChampionStats) (cid : ℕ) (f : ChampionStat → ChampionStat) :
    (modifyStat cs cid f).map (fun e => e.1) = cs.map (fun e => e.1) := by
  induction cs with
  | nil => rfl
  | cons e rest ih =>
      unfold modifyStat
      by_cases h : e.1 = cid
      · rw [if_pos h]; simp
      · rw [if_neg h]; simp [ih]

lemma rowTotalSum_updateMatchupStat (cid : ℕ) (ms : List (MKey × MatchupStat))
    (k : MKey) (w : Bool) :
    rowTotalSum cid (updateMatchupStat ms k w) =
      rowTotalSum cid ms + (if k.1 = cid then 1 else 0) := by
  induction ms with
  | nil =>
      unfold updateMatchupStat rowTotalSum
      by_cases h : k.1 = cid
      · simp [List.filter, h]
      · have hb : (k.1 == cid) = false := beq_eq_false_iff_ne.mpr h
        simp [List.filter, hb, h]
  | cons e rest ih =>
      unfold updateMatchupStat
      by_cases h : e.1 = k
      · rw [if_pos h]
        unfold rowTotalSum
        by_cases hc : k.1 = cid
        · have he : e.1.1 = cid := by rw [h, hc]
          simp [List.filter_cons, he, hc]
          omega
        · have he : ¬ e.1.1 = cid := by rw [h]; exact hc
          simp [List.filter_cons, he, hc]
      · rw [if_neg h]
        unfold rowTotalSum
        unfold rowTotalSum at ih
        by_cases he : e.1.1 = cid
        · simp [List.filter_cons, he, ih]
          omega
        · simp [List.filter_cons, he, ih]

/-- Sum of all accumulated sample totals. -/
def totalsSum (ms : List (MKey × MatchupStat)) : ℕ :=
  (ms.map (fun e => e.2.total)).sum

lemma totalsSum_updateMatchupStat (ms : List (MKey × MatchupStat)) (k : MKey) (w : Bool) :
    totalsSum (updateMatchupStat ms k w) = totalsSum ms + 1 := by
  induction ms with
  | nil => simp [updateMatchupStat, totalsSum]
  | cons e rest ih =>
      unfold updateMatchupStat
      by_cases h : e.1 = k
      · rw [if_pos h]
        simp [totalsSum]
        omega
      · rw [if_neg h]
        simp [totalsSum] at ih ⊢
        omega

lemma keys_updateMatchupStat (ms : List (MKey × MatchupStat)) (k : MKey) (w : Bool) :
    ∀ e ∈ updateMatchupStat ms k w, e.1 = k ∨ e.1 ∈ ms.map (fun x => x.1) := by
  induction ms with
  | nil =>
      intro e he
      simp [updateMatchupStat] at he
      simp [he]
  | cons x rest ih =>
      unfold updateMatchupStat
      by_cases h : x.1 = k
      · rw [if_pos h]
        intro e he
        rcases List.mem_cons.mp he with rfl | hrest
        · left; exact h
        · right
          simp only [List.map_cons, List.mem_cons]
          right
          exact List.mem_map_of_mem (fun y => y.1) hrest
      · rw [if_neg h]
        intro e he
        rcases List.mem_cons.mp he with rfl | hrest
        · right; simp
        · rcases ih e hrest with h1 | h2
          · exact Or.inl h1
          · right
            simp only [List.map_cons, List.mem_cons]
            right
            exact h2

lemma lookupStat_updateOverallPair_totalGames (cs : ChampionStats) (mu : Matchup) (cid : ℕ) :
    (lookupStat (updateOverallPair cs mu) cid).map (fun s => s.overallStats.totalGames) =
      (lookupStat cs cid).map (fun s => s.overallStats.totalGames +
        ((if mu.champion1.id = cid then 1 else 0) +
         (if mu.champion2.id = cid then 1 else 0))) := by
  unfold updateOverallPair updateOverallStats
  rw [lookupStat_modifyStat, lookupStat_modifyStat]
  by_cases h2 : mu.champion2.id = cid <;> by_cases h1 : mu.champion1.id = cid <;>
    cases hlk : lookupStat cs cid <;> simp [h1, h2, hlk] <;> omega

lemma TG_step (ms : List (MKey × MatchupStat)) (cs : ChampionStats) (mu : Matchup)
    (h : ∀ cid st, lookupStat cs cid = some st →
      st.overallStats.totalGames = rowTotalSum cid ms) :
    ∀ cid st, lookupStat (updateOverallPair cs mu) cid = some st →
      st.overallStats.totalGames = rowTotalSum cid (updateMatchupPair ms mu) := by
  intro cid st hlk
  have hmap := lookupStat_updateOverallPair_totalGames cs mu cid
  rw [hlk] at hmap
  cases hlk0 : lookupStat cs cid with
  | none => rw [hlk0] at hmap; simp at hmap
  | some st0 =>
      rw [hlk0] at hmap
      simp only [Option.map_some'] at hmap
      have hst : st.overallStats.totalGames = st0.overallStats.totalGames +
          ((if mu.champion1.id = cid then 1 else 0) +
           (if mu.champion2.id = cid then 1 else 0)) := by
        injection hmap
      have h0 := h cid st0 hlk0
      unfold updateMatchupPair
      rw [rowTotalSum_updateMatchupStat, rowTotalSum_updateMatchupStat]
      by_cases h1 : mu.champion1.id = cid <;> by_cases h2 : mu.champion2.id = cid <;>
        simp [h1, h2] at hst ⊢ <;> omega

lemma accum_foldl_fst (mus : List Matchup) :
    ∀ (ms : List (MKey × MatchupStat)) (cs : ChampionStats),
      (mus.foldl accumStep (ms, cs)).1 = mus.foldl updateMatchupPair ms := by
  induction mus with
  | nil => intro ms cs; rfl
  | cons mu rest ih =>
      intro ms cs
      simp only [List.foldl_cons]
      exact ih (updateMatchupPair ms mu) (updateOverallPair cs mu)

lemma accum_foldl_TG (mus : List Matchup) :
    ∀ (ms : List (MKey × MatchupStat)) (cs : ChampionStats),
      (∀ cid st, lookupStat cs cid = some st →
        st.overallStats.totalGames = rowTotalSum cid ms) →
      ∀ cid st, lookupStat ((mus.foldl accumStep (ms, cs)).2) cid = some st →
        st.overallStats.totalGames = rowTotalSum cid ((mus.foldl accumStep (ms, cs)).1) := by
  induction mus with
  | nil => intro ms cs h; exact h
  | cons mu rest ih =>
      intro ms cs h
      simp only [List.foldl_cons]
      exact ih (updateMatchupPair ms mu) (updateOverallPair cs mu) (TG_step ms cs mu h)

lemma lookupStat_init (champions : List Champion) (cid : ℕ) :
    ∀ st, lookupStat (initChampionStats champions) cid = some st →
      st.overallStats.totalGames = 0 ∧
      st.counterRelationships.strongCounters = [] ∧
      st.counterRelationships.counters = [] ∧
      st.counterRelationships.counteredBy = [] := by
  induction champions with
  | nil => intro st h; simp [initChampionStats, lookupStat] at h
  | cons c rest ih =>
      intro st h
      rw [initChampionStats, List.map_cons, lookupStat_cons] at h
      by_cases hc : c.id = cid
      · rw [if_pos hc] at h
        obtain rfl : _ = st := by injection h
        exact ⟨rfl, rfl, rfl, rfl⟩
      · rw [if_neg hc] at h
        exact ih st h

lemma lookupStat_init_isSome (champions : List Champion) (cid : ℕ) :
    (lookupStat (initChampionStats champions) cid).isSome = true ↔
      cid ∈ champions.map (fun c => c.id) := by
  induction champions with
  | nil => simp [initChampionStats, lookupStat]
  | cons c rest ih =>
      rw [initChampionStats, List.map_cons, lookupStat_cons]
      by_cases hc : c.id = cid
      · simp [hc]
      · rw [if_neg hc]
        rw [initChampionStats] at ih
        simp [ih, List.mem_cons]
        intro hcontra
        exact absurd hcontra.symm hc

lemma overall_modifyPush (cs : ChampionStats) (cid' cid : ℕ)
    (f : ChampionStat → ChampionStat) (hf : ∀ s, (f s).overallStats = s.overallStats) :
    (lookupStat (modifyStat cs cid' f) cid).map (fun s => s.overallStats) =
      (lookupStat cs cid).map (fun s => s.overallStats) := by
  rw [lookupStat_modifyStat]
  by_cases h : cid' = cid
  · rw [if_pos h]
    cases lookupStat cs cid <;> simp [hf]
  · rw [if_neg h]

lemma lookupStat_processKey_overall (cs : ChampionStats) (e : MKey × MatchupStat) (cid : ℕ) :
    (lookupStat (processKey cs e) cid).map (fun s => s.overallStats) =
      (lookupStat cs cid).map (fun s => s.overallStats) := by
  simp only [processKey]
  split
  · rfl
  · split
    · split
      · refine Eq.trans (overall_modifyPush _ _ _ _ (fun s => rfl)) ?_
        split
        · exact overall_modifyPush _ _ _ _ (fun s => rfl)
        · split
          · exact overall_modifyPush _ _ _ _ (fun s => rfl)
          · rfl
      · split
        · exact overall_modifyPush _ _ _ _ (fun s => rfl)
        · split
          · exact overall_modifyPush _ _ _ _ (fun s => rfl)
          · rfl
    · rfl

lemma lookupStat_foldl_processKey_overall (ms : List (MKey × MatchupStat)) :
    ∀ (cs : ChampionStats) (cid : ℕ),
      (lookupStat (ms.foldl processKey cs) cid).map (fun s => s.overallStats) =
        (lookupStat cs cid).map (fun s => s.overallStats) := by
  induction ms with
  | nil => intro cs cid; rfl
  | cons e rest ih =>
      intro cs cid
      simp only [List.foldl_cons]
      rw [ih (processKey cs e) cid, lookupStat_processKey_overall]

lemma lookupStat_finalizeStats (cs : ChampionStats) (cid : ℕ) :
    lookupStat (finalizeStats cs) cid = (lookupStat cs cid).map finalizeOne := by
  induction cs with
  | nil => rfl
  | cons e rest ih =>
      rw [finalizeStats, List.map_cons, lookupStat_cons, lookupStat_cons]
      by_cases h : e.1 = cid
      · simp [h]
      · rw [if_neg h, if_neg h, ← finalizeStats, ih]

lemma finalizeOne_totalGames (s : ChampionStat) :
    (finalizeOne s).overallStats.totalGames = s.overallStats.totalGames := by
  unfold finalizeOne
  split <;> rfl

lemma isSome_updateOverallPair (cs : ChampionStats) (mu : Matchup) (cid : ℕ) :
    (lookupStat (updateOverallPair cs mu) cid).isSome = (lookupStat cs cid).isSome := by
  have h := lookupStat_updateOverallPair_totalGames cs mu cid
  cases h1 : lookupStat (updateOverallPair cs mu) cid <;> cases h2 : lookupStat cs cid <;>
    rw [h1, h2] at h <;> simp at h ⊢

lemma isSome_accum_foldl (mus : List Matchup) :
    ∀ (ms : List (MKey × MatchupStat)) (cs : ChampionStats) (cid : ℕ),
      (lookupStat ((mus.foldl accumStep (ms, cs)).2) cid).isSome =
        (lookupStat cs cid).isSome := by
  induction mus with
  | nil => intro ms cs cid; rfl
  | cons mu rest ih =>
      intro ms cs cid
      simp only [List.foldl_cons, accumStep]
      rw [ih (updateMatchupPair ms mu) (updateOverallPair cs mu) cid]
      exact isSome_updateOverallPair cs mu cid

/-- C6: for every known champion, the overall totalGames counter of the
engine's output equals the sum of the totals of the accumulated
directional samples whose row side is that champion. -/
theorem engine_totalGames_eq_row_sum :
    ∀ (matchups : List Matchup) (champions : List Champion) (cid : ℕ),
      cid ∈ champions.map (fun c => c.id) →
      ∃ st, lookupStat (calculateCounterRelationships matchups champions) cid = some st ∧
        st.overallStats.totalGames = rowTotalSum cid (accumMatchupStats matchups) := by
  intro matchups champions cid hmem
  unfold calculateCounterRelationships processCounterRelationships
  have hTG := accum_foldl_TG matchups [] (initChampionStats champions)
    (fun cid0 st0 h0 => by
      rw [(lookupStat_init champions cid0 st0 h0).1]
      rfl)
  have hinit : (lookupStat (initChampionStats champions) cid).isSome = true :=
    (lookupStat_init_isSome champions cid).mpr hmem
  have haccumSome :
      (lookupStat ((matchups.foldl accumStep ([], initChampionStats champions)).2) cid).isSome
        = true := by
    rw [isSome_accum_foldl matchups [] (initChampionStats champions) cid]
    exact hinit
  obtain ⟨st1, hst1⟩ := Option.isSome_iff_exists.mp haccumSome
  have ht1 := hTG cid st1 hst1
  have hover := lookupStat_foldl_processKey_overall
    ((matchups.foldl accumStep ([], initChampionStats champions)).1)
    ((matchups.foldl accumStep ([], initChampionStats champions)).2) cid
  rw [hst1] at hover
  cases hst2 : lookupStat
      (((matchups.foldl accumStep ([], initChampionStats champions)).1).foldl processKey
        ((matchups.foldl accumStep ([], initChampionStats champions)).2)) cid with
  | none =>
      rw [hst2, Option.map_none'] at hover
      rw [Option.map_some'] at hover
      exact Option.noConfusion hover
  | some st2 =>
      rw [hst2] at hover
      simp only [Option.map_some'] at hover
      have hov : st2.overallStats = st1.overallStats := by injection hover
      refine ⟨finalizeOne st2, ?_, ?_⟩
      · rw [lookupStat_finalizeStats, hst2]
        rfl
      · rw [finalizeOne_totalGames, hov, ht1,
          accum_foldl_fst matchups [] (initChampionStats champions)]
        rfl

/-- Witness: with one known champion and one observation in which that
champion appears on both output rows it is involved in, totalGames
equals the row-sample total sum. -/
theorem engine_totalGames_witness :
    (1 : ℕ) ∈ ([⟨1, "A", "1"⟩] : List Champion).map (fun c => c.id) ∧
    ∃ st, lookupStat (calculateCounterRelationships
        [⟨"M", .TOP, ⟨1, "A", true, 100⟩, ⟨2, "B", false, 200⟩⟩] [⟨1, "A", "1"⟩]) 1 = some st ∧
      st.overallStats.totalGames = rowTotalSum 1 (accumMatchupStats
        [⟨"M", .TOP, ⟨1, "A", true, 100⟩, ⟨2, "B", false, 200⟩⟩]) := by
  refine ⟨by simp, engine_totalGames_eq_row_sum
    [⟨"M", .TOP, ⟨1, "A", true, 100⟩, ⟨2, "B", false, 200⟩⟩] [⟨1, "A", "1"⟩] 1 (by simp)⟩

lemma keys_init (champions : List Champion) :
    ∀ e ∈ initChampionStats champions, e.1 ∈ champions.map (fun c => c.id) := by
  intro e he
  rcases List.mem_map.mp he with ⟨c, hc, rfl⟩
  exact List.mem_map_of_mem (fun c => c.id) hc

lemma isSome_processKey (cs : ChampionStats) (e : MKey × MatchupStat) (cid : ℕ) :
    (lookupStat (processKey cs e) cid).isSome = (lookupStat cs cid).isSome := by
  have h := lookupStat_processKey_overall cs e cid
  cases h1 : lookupStat (processKey cs e) cid <;> cases h2 : lookupStat cs cid <;>
    rw [h1, h2] at h <;> simp at h ⊢

lemma isSome_foldl_processKey (ms : List (MKey × MatchupStat)) :
    ∀ (cs : ChampionStats) (cid : ℕ),
      (lookupStat (ms.foldl processKey cs) cid).isSome = (lookupStat cs cid).isSome := by
  induction ms with
  | nil => intro cs cid; rfl
  | cons e rest ih =>
      intro cs cid
      simp only [List.foldl_cons]
      rw [ih (processKey cs e) cid, isSome_processKey]

lemma updateOverallPair_unknown (cs : ChampionStats) (mu : Matchup)
    (h1 : ∀ x ∈ cs, x.1 ≠ mu.champion1.id) (h2 : ∀ x ∈ cs, x.1 ≠ mu.champion2.id) :
    updateOverallPair cs mu = cs := by
  unfold updateOverallPair updateOverallStats
  rw [modifyStat_of_not_mem cs mu.champion1.id _ h1,
    modifyStat_of_not_mem cs mu.champion2.id _ h2]

lemma processKey_unknown (cs : ChampionStats) (e : MKey × MatchupStat)
    (h1 : ∀ x ∈ cs, x.1 ≠ e.1.1) (h2 : ∀ x ∈ cs, x.1 ≠ e.1.2.1) :
    processKey cs e = cs := by
  simp only [processKey]
  split
  · rfl
  · split
    · have hcs1 : ∀ cd : CounterRecord,
          (if (e.2.wins : ℚ) / (e.2.total : ℚ) ≥ 0.65 then
            modifyStat cs e.1.1 (pushStrong cd)
          else if (e.2.wins : ℚ) / (e.2.total : ℚ) ≥ 0.56 then
            modifyStat cs e.1.1 (pushCounter cd)
          else cs) = cs := by
        intro cd
        split
        · exact modifyStat_of_not_mem cs e.1.1 _ h1
        · split
          · exact modifyStat_of_not_mem cs e.1.1 _ h1
          · rfl
      rw [hcs1]
      split
      · exact modifyStat_of_not_mem cs e.1.2.1 _ h2
      · rfl
    · rfl

lemma totalsSum_updateMatchupPair (ms : List (MKey × MatchupStat)) (mu : Matchup) :
    totalsSum (updateMatchupPair ms mu) = totalsSum ms + 2 := by
  unfold updateMatchupPair
  rw [totalsSum_updateMatchupStat, totalsSum_updateMatchupStat]

lemma totalsSum_accum (mus : List Matchup) :
    ∀ ms : List (MKey × MatchupStat),
      totalsSum (mus.foldl updateMatchupPair ms) = totalsSum ms + 2 * mus.length := by
  induction mus with
  | nil => intro ms; simp
  | cons mu rest ih =>
      intro ms
      simp only [List.foldl_cons]
      rw [ih (updateMatchupPair ms mu), totalsSum_updateMatchupPair]
      simp [List.length_cons]
      ring

lemma rowKeys_updateMatchupPair (ms : List (MKey × MatchupStat)) (mu : Matchup)
    (ids : List ℕ)
    (hms : ∀ e ∈ ms, e.1.1 ∉ ids ∧ e.1.2.1 ∉ ids)
    (hmu1 : mu.champion1.id ∉ ids) (hmu2 : mu.champion2.id ∉ ids) :
    ∀ e ∈ updateMatchupPair ms mu, e.1.1 ∉ ids ∧ e.1.2.1 ∉ ids := by
  intro e he
  unfold updateMatchupPair at he
  rcases keys_updateMatchupStat _ _ _ e he with hk | hmem
  · rw [hk]
    exact ⟨hmu2, hmu1⟩
  · rcases List.mem_map.mp hmem with ⟨y, hy, hye⟩
    rcases keys_updateMatchupStat _ _ _ y hy with hk2 | hmem2
    · rw [← hye, hk2]
      exact ⟨hmu1, hmu2⟩
    · rcases List.mem_map.mp hmem2 with ⟨z, hz, hze⟩
      rw [← hye, ← hze]
      exact hms z hz

lemma accum_unknown (mus : List Matchup) (champions : List Champion)
    (hunk : ∀ mu ∈ mus, mu.champion1.id ∉ champions.map (fun c => c.id) ∧
      mu.champion2.id ∉ champions.map (fun c => c.id)) :
    ∀ ms : List (MKey × MatchupStat),
      (∀ e ∈ ms, e.1.1 ∉ champions.map (fun c => c.id) ∧
        e.1.2.1 ∉ champions.map (fun c => c.id)) →
      (mus.foldl accumStep (ms, initChampionStats champions)).2 = initChampionStats champions ∧
      (∀ e ∈ (mus.foldl accumStep (ms, initChampionStats champions)).1,
        e.1.1 ∉ champions.map (fun c => c.id) ∧
        e.1.2.1 ∉ champions.map (fun c => c.id)) := by
  induction mus with
  | nil => intro ms hms; exact ⟨rfl, hms⟩
  | cons mu rest ih =>
      intro ms hms
      have hmu := hunk mu (by simp)
      have hstep : accumStep (ms, initChampionStats champions) mu =
          (updateMatchupPair ms mu, initChampionStats champions) := by
        unfold accumStep
        rw [updateOverallPair_unknown]
        · intro x hx hc
          exact hmu.1 (hc ▸ keys_init champions x hx)
        · intro x hx hc
          exact hmu.2 (hc ▸ keys_init champions x hx)
      simp only [List.foldl_cons, hstep]
      exact ih (fun m hm => hunk m (by simp [hm])) (updateMatchupPair ms mu)
        (rowKeys_updateMatchupPair ms mu _ hms hmu.1 hmu.2)

lemma process_foldl_unknown (ms : List (MKey × MatchupStat)) (champions : List Champion)
    (hms : ∀ e ∈ ms, e.1.1 ∉ champions.map (fun c => c.id) ∧
      e.1.2.1 ∉ champions.map (fun c => c.id)) :
    ms.foldl processKey (initChampionStats champions) = initChampionStats champions := by
  induction ms with
  | nil => rfl
  | cons e rest ih =>
      have he := hms e (by simp)
      simp only [List.foldl_cons]
      rw [processKey_unknown (initChampionStats champions) e
        (fun x hx hc => he.1 (hc ▸ keys_init champions x hx))
        (fun x hx hc => he.2 (hc ▸ keys_init champions x hx))]
      exact ih (fun x hx => hms x (by simp [hx]))

/-- C10: the engine is total over unknown champion ids: the key set of
its output always equals the known-champion id set, matchup samples
accumulate for every observation (two per observation), and a list of
observations referencing only unknown champions leaves the output
exactly as for the empty observation list. -/
theorem engine_total_over_unknown_champions :
    ∀ (matchups : List Matchup) (champions : List Champion),
      (∀ cid, (lookupStat (calculateCounterRelationships matchups champions) cid).isSome = true
        ↔ cid ∈ champions.map (fun c => c.id)) ∧
      totalsSum (accumMatchupStats matchups) = 2 * matchups.length ∧
      ((∀ mu ∈ matchups, mu.champion1.id ∉ champions.map (fun c => c.id) ∧
          mu.champion2.id ∉ champions.map (fun c => c.id)) →
        calculateCounterRelationships matchups champions =
          calculateCounterRelationships [] champions) := by
  intro matchups champions
  refine ⟨?_, ?_, ?_⟩
  · intro cid
    unfold calculateCounterRelationships processCounterRelationships
    rw [lookupStat_finalizeStats, Option.isSome_map', isSome_foldl_processKey,
      isSome_accum_foldl]
    exact lookupStat_init_isSome champions cid
  · unfold accumMatchupStats
    rw [totalsSum_accum]
    simp [totalsSum]
  · intro hunk
    obtain ⟨h2, h1⟩ := accum_unknown matchups champions hunk [] (by intro e he; simp at he)
    show finalizeStats (List.foldl processKey
        ((matchups.foldl accumStep ([], initChampionStats champions)).2)
        ((matchups.foldl accumStep ([], initChampionStats champions)).1)) =
      finalizeStats (List.foldl processKey
        ((([] : List Matchup).foldl accumStep ([], initChampionStats champions)).2)
        ((([] : List Matchup).foldl accumStep ([], initChampionStats champions)).1))
    rw [h2, process_foldl_unknown _ champions h1]
    rfl

/-- Witness: one known champion, one observation between two unknown
champions: the output keys are exactly the known id and the run equals
the empty-observation run. -/
theorem engine_total_unknown_witness :
    (∀ mu ∈ ([⟨"M", .TOP, ⟨5, "U", true, 100⟩, ⟨6, "V", false, 200⟩⟩] : List Matchup),
      mu.champion1.id ∉ ([⟨1, "A", "1"⟩] : List Champion).map (fun c => c.id) ∧
      mu.champion2.id ∉ ([⟨1, "A", "1"⟩] : List Champion).map (fun c => c.id)) ∧
    ((lookupStat (calculateCounterRelationships
        [⟨"M", .TOP, ⟨5, "U", true, 100⟩, ⟨6, "V", false, 200⟩⟩] [⟨1, "A", "1"⟩]) 1).isSome
      = true) ∧
    calculateCounterRelationships
        [⟨"M", .TOP, ⟨5, "U", true, 100⟩, ⟨6, "V", false, 200⟩⟩] [⟨1, "A", "1"⟩] =
      calculateCounterRelationships [] [⟨1, "A", "1"⟩] := by
  have h := engine_total_over_unknown_champions
    [⟨"M", .TOP, ⟨5, "U", true, 100⟩, ⟨6, "V", false, 200⟩⟩] [⟨1, "A", "1"⟩]
  have hunk : ∀ mu ∈ ([⟨"M", .TOP, ⟨5, "U", true, 100⟩, ⟨6, "V", false, 200⟩⟩] : List Matchup),
      mu.champion1.id ∉ ([⟨1, "A", "1"⟩] : List Champion).map (fun c => c.id) ∧
      mu.champion2.id ∉ ([⟨1, "A", "1"⟩] : List Champion).map (fun c => c.id) := by
    intro mu hmu
    simp at hmu
    subst hmu
    simp
  exact ⟨hunk, (h.1 1).mpr (by simp), h.2.2 hunk⟩

/-- C9: the engine is a pure function of the observation list and the
champion catalogue: two runs on the same inputs produce the same
output. -/
theorem engine_deterministic :
    ∀ (matchups1 matchups2 : List Matchup) (champions1 champions2 : List Champion),
      matchups1 = matchups2 → champions1 = champions2 →
      calculateCounterRelationships matchups1 champions1 =
        calculateCounterRelationships matchups2 champions2 := by
  intro m1 m2 c1 c2 hm hc
  rw [hm, hc]

/-- Witness: two identical runs at a concrete input coincide. -/
theorem engine_deterministic_witness :
    ([⟨"M", .TOP, ⟨1, "A", true, 100⟩, ⟨2, "B", false, 200⟩⟩] : List Matchup) =
      [⟨"M", .TOP, ⟨1, "A", true, 100⟩, ⟨2, "B", false, 200⟩⟩] ∧
    calculateCounterRelationships
        [⟨"M", .TOP, ⟨1, "A", true, 100⟩, ⟨2, "B", false, 200⟩⟩] [⟨1, "A", "1"⟩] =
      calculateCounterRelationships
        [⟨"M", .TOP, ⟨1, "A", true, 100⟩, ⟨2, "B", false, 200⟩⟩] [⟨1, "A", "1"⟩] :=
  ⟨rfl, engine_deterministic _ _ _ _ rfl rfl⟩

lemma calcSig_isSignificant_iff (w : ℚ) (n : ℕ) (b : ℚ) :
    (calculateStatisticalSignificance w n b).isSignificant ↔
      (calculateStatisticalSignificance w n b).pValue < 0.05 := Iff.rfl

lemma calcSig_zScore (w : ℚ) (n : ℕ) (b : ℚ) :
    (calculateStatisticalSignificance w n b).zScore =
      ((w : ℝ) - (b : ℝ)) / Real.sqrt (((b * (1 - b) : ℚ) : ℝ) / (n : ℝ)) := rfl

lemma calcSig_pValue (w : ℚ) (n : ℕ) (b : ℚ) :
    (calculateStatisticalSignificance w n b).pValue =
      2 * (1 - normalCDF |(calculateStatisticalSignificance w n b).zScore|) := rfl

lemma pValue_lt_of_big (x : ℝ) (hx : 0 < x) (hx2 : 40 ≤ x ^ 2) :
    2 * (1 - normalCDF x) < 0.05 := by
  have hpi := Real.pi_pos
  have hpi315 : Real.pi < 3.15 := Real.pi_lt_d2
  have ht10 : (10 : ℝ) < 2 * x * x / Real.pi := by
    rw [lt_div_iff₀ hpi]
    nlinarith
  have hlog : Real.log (400 / 39) < 2 * x * x / Real.pi := by
    have h1 : Real.log (400 / 39) ≤ 400 / 39 - 1 :=
      Real.log_le_sub_one_of_pos (by norm_num)
    have h2 : (400 : ℝ) / 39 - 1 ≤ 10 := by norm_num
    linarith
  have hexp : Real.exp (-(2 * x * x / Real.pi)) < 39 / 400 := by
    have h1 : Real.exp (-(2 * x * x / Real.pi)) < Real.exp (-Real.log (400 / 39)) :=
      Real.exp_lt_exp.mpr (by linarith)
    have h2 : Real.exp (-Real.log (400 / 39)) = 39 / 400 := by
      rw [Real.exp_neg, Real.exp_log (by norm_num : (0 : ℝ) < 400 / 39)]
      norm_num
    rw [h2] at h1
    exact h1
  have hes : (19 / 20 : ℝ) < Real.sqrt (1 - Real.exp (-(2 * x * x / Real.pi))) := by
    rw [Real.lt_sqrt (by norm_num)]
    have hpos : 0 < Real.exp (-(2 * x * x / Real.pi)) := Real.exp_pos _
    nlinarith
  unfold normalCDF
  rw [Real.sign_of_pos hx]
  have harg : -2 * x * x / Real.pi = -(2 * x * x / Real.pi) := by ring
  rw [harg]
  have h005 : (0.05 : ℝ) = 1 / 20 := by norm_num
  rw [h005]
  nlinarith [hes]

lemma sig_at_quarter (w : ℚ) (hw : (((w : ℝ)) - ((0.5 : ℚ) : ℝ)) ^ 2 = 1 / 4) :
    (calculateStatisticalSignificance w 40 0.5).isSignificant := by
  rw [calcSig_isSignificant_iff, calcSig_pValue, calcSig_zScore]
  have hse : ((0.5 * (1 - 0.5) : ℚ) : ℝ) / ((40 : ℕ) : ℝ) = 1 / 160 := by
    push_cast
    norm_num
  rw [hse]
  have hz2 : |(((w : ℝ)) - ((0.5 : ℚ) : ℝ)) / Real.sqrt (1 / 160)| ^ 2 = 40 := by
    rw [sq_abs, div_pow, Real.sq_sqrt (by norm_num : (0 : ℝ) ≤ 1 / 160), hw]
    norm_num
  have hne : (((w : ℝ)) - ((0.5 : ℚ) : ℝ)) / Real.sqrt (1 / 160) ≠ 0 := by
    intro h0
    rw [h0] at hz2
    simp at hz2
  exact pValue_lt_of_big _ (abs_pos.mpr hne) (le_of_eq hz2.symm)

lemma sig_one_forty : (calculateStatisticalSignificance 1 40 0.5).isSignificant := by
  apply sig_at_quarter
  push_cast
  norm_num

lemma sig_zero_forty : (calculateStatisticalSignificance 0 40 0.5).isSignificant := by
  apply sig_at_quarter
  push_cast
  norm_num

lemma normalCDF_eq_spec (x : ℝ) : normalCDF x = specNormalCDF x := by
  unfold normalCDF specNormalCDF
  rw [show -2 * x * x / Real.pi = -2 * x ^ 2 / Real.pi by ring]

lemma classify_of_significant (w : ℚ) (n : ℕ) (sig : Significance)
    (hsig : sig.isSignificant) (hn : 30 ≤ n) :
    classifyCounterStrength w n sig = specStrengthOf |w - 0.5| := by
  unfold classifyCounterStrength specStrengthOf
  rw [if_neg]
  rw [not_or]
  exact ⟨not_not_intro hsig, by omega⟩

/-- Every relationship-list entry reachable from a champion record has
a sample of at least MIN_SAMPLE_SIZE games. -/
def EntriesGE30 (cs : ChampionStats) : Prop :=
  ∀ cid st, lookupStat cs cid = some st →
    ∀ entry : CounterRecord,
      (entry ∈ st.counterRelationships.strongCounters ∨
       entry ∈ st.counterRelationships.counters ∨
       entry ∈ st.counterRelationships.counteredBy) →
      30 ≤ entry.sampleSize

lemma EntriesGE30_modify_push (cs : ChampionStats) (cid' : ℕ)
    (f : ChampionStat → ChampionStat)
    (hf : ∀ s (entry : CounterRecord),
      (entry ∈ (f s).counterRelationships.strongCounters ∨
       entry ∈ (f s).counterRelationships.counters ∨
       entry ∈ (f s).counterRelationships.counteredBy) →
      ((entry ∈ s.counterRelationships.strongCounters ∨
        entry ∈ s.counterRelationships.counters ∨
        entry ∈ s.counterRelationships.counteredBy) ∨ 30 ≤ entry.sampleSize))
    (h : EntriesGE30 cs) : EntriesGE30 (modifyStat cs cid' f) := by
  intro cid st hlk entry hm
  rw [lookupStat_modifyStat] at hlk
  by_cases hc : cid' = cid
  · rw [if_pos hc] at hlk
    cases hlk0 : lookupStat cs cid with
    | none => rw [hlk0] at hlk; exact Option.noConfusion hlk
    | some s0 =>
        rw [hlk0, Option.map_some'] at hlk
        obtain rfl : f s0 = st := by injection hlk
        rcases hf s0 entry hm with hold | hge
        · exact h cid s0 hlk0 entry hold
        · exact hge
  · rw [if_neg hc] at hlk
    exact h cid st hlk entry hm

lemma EntriesGE30_updateOverallStats (cs : ChampionStats) (c : ℕ) (w : Bool)
    (h : EntriesGE30 cs) : EntriesGE30 (updateOverallStats cs c w) := by
  unfold updateOverallStats
  refine EntriesGE30_modify_push cs c _ ?_ h
  intro s entry hm
  exact Or.inl hm

lemma EntriesGE30_accum (mus : List Matchup) :
    ∀ (ms : List (MKey × MatchupStat)) (cs : ChampionStats),
      EntriesGE30 cs → EntriesGE30 ((mus.foldl accumStep (ms, cs)).2) := by
  induction mus with
  | nil => intro ms cs h; exact h
  | cons mu rest ih =>
      intro ms cs h
      simp only [List.foldl_cons, accumStep]
      exact ih (updateMatchupPair ms mu)
        (updateOverallPair cs mu)
        (EntriesGE30_updateOverallStats _ _ _ (EntriesGE30_updateOverallStats _ _ _ h))

lemma EntriesGE30_processKey (cs : ChampionStats) (e : MKey × MatchupStat)
    (h : EntriesGE30 cs) : EntriesGE30 (processKey cs e) := by
  simp only [processKey]
  split
  · exact h
  · rename_i h30
    have h30' : 30 ≤ e.2.total := by omega
    split
    · have hcs1 : EntriesGE30 (if (e.2.wins : ℚ) / (e.2.total : ℚ) ≥ 0.65 then
          modifyStat cs e.1.1 (pushStrong
            { championId := e.1.2.1
              championName := ((lookupStat cs e.1.2.1).map (fun s => s.name)).getD "Unknown"
              lane := e.1.2.2
              matchupWinRate := (e.2.wins : ℚ) / (e.2.total : ℚ)
              sampleSize := e.2.total
              significance := (calculateStatisticalSignificance
                ((e.2.wins : ℚ) / (e.2.total : ℚ)) e.2.total 0.5).pValue
              counterStrength := classifyCounterStrength
                ((e.2.wins : ℚ) / (e.2.total : ℚ)) e.2.total
                (calculateStatisticalSignificance
                  ((e.2.wins : ℚ) / (e.2.total : ℚ)) e.2.total 0.5)
              enemyWinRate := none })
        else if (e.2.wins : ℚ) / (e.2.total : ℚ) ≥ 0.56 then
          modifyStat cs e.1.1 (pushCounter
            { championId := e.1.2.1
              championName := ((lookupStat cs e.1.2.1).map (fun s => s.name)).getD "Unknown"
              lane := e.1.2.2
              matchupWinRate := (e.2.wins : ℚ) / (e.2.total : ℚ)
              sampleSize := e.2.total
              significance := (calculateStatisticalSignificance
                ((e.2.wins : ℚ) / (e.2.total : ℚ)) e.2.total 0.5).pValue
              counterStrength := classifyCounterStrength
                ((e.2.wins : ℚ) / (e.2.total : ℚ)) e.2.total
                (calculateStatisticalSignificance
                  ((e.2.wins : ℚ) / (e.2.total : ℚ)) e.2.total 0.5)
              enemyWinRate := none })
        else cs) := by
        split
        · refine EntriesGE30_modify_push _ _ _ ?_ h
          intro s entry hm
          rcases hm with hm | hm | hm
          · simp only [pushStrong, List.mem_append, List.mem_singleton] at hm
            rcases hm with hm | rfl
            · exact Or.inl (Or.inl hm)
            · exact Or.inr h30'
          · exact Or.inl (Or.inr (Or.inl hm))
          · exact Or.inl (Or.inr (Or.inr hm))
        · split
          · refine EntriesGE30_modify_push _ _ _ ?_ h
            intro s entry hm
            rcases hm with hm | hm | hm
            · exact Or.inl (Or.inl hm)
            · simp only [pushCounter, List.mem_append, List.mem_singleton] at hm
              rcases hm with hm | rfl
              · exact Or.inl (Or.inr (Or.inl hm))
              · exact Or.inr h30'
            · exact Or.inl (Or.inr (Or.inr hm))
          · exact h
      split
      · refine EntriesGE30_modify_push _ _ _ ?_ hcs1
        intro s entry hm
        rcases hm with hm | hm | hm
        · exact Or.inl (Or.inl hm)
        · exact Or.inl (Or.inr (Or.inl hm))
        · simp only [pushCounteredBy, List.mem_append, List.mem_singleton] at hm
          rcases hm with hm | rfl
          · exact Or.inl (Or.inr (Or.inr hm))
          · exact Or.inr h30'
      · exact hcs1
    · exact h

lemma EntriesGE30_foldl_processKey (ms : List (MKey × MatchupStat)) :
    ∀ cs : ChampionStats, EntriesGE30 cs → EntriesGE30 (ms.foldl processKey cs) := by
  induction ms with
  | nil => intro cs h; exact h
  | cons e rest ih =>
      intro cs h
      simp only [List.foldl_cons]
      exact ih (processKey cs e) (EntriesGE30_processKey cs e h)

lemma finalizeOne_counterRelationships (s : ChampionStat) :
    (finalizeOne s).counterRelationships = s.counterRelationships := by
  unfold finalizeOne
  split <;> rfl

lemma EntriesGE30_finalizeStats (cs : ChampionStats) (h : EntriesGE30 cs) :
    EntriesGE30 (finalizeStats cs) := by
  intro cid st hlk entry hm
  rw [lookupStat_finalizeStats] at hlk
  cases hlk0 : lookupStat cs cid with
  | none => rw [hlk0] at hlk; exact Option.noConfusion hlk
  | some s0 =>
      rw [hlk0, Option.map_some'] at hlk
      obtain rfl : finalizeOne s0 = st := by injection hlk
      rw [finalizeOne_counterRelationships] at hm
      exact h cid s0 hlk0 entry hm

lemma EntriesGE30_init (champions : List Champion) :
    EntriesGE30 (initChampionStats champions) := by
  intro cid st hlk entry hm
  obtain ⟨-, h1, h2, h3⟩ := lookupStat_init champions cid st hlk
  rcases hm with hm | hm | hm
  · rw [h1] at hm; exact absurd hm (List.not_mem_nil entry)
  · rw [h2] at hm; exact absurd hm (List.not_mem_nil entry)
  · rw [h3] at hm; exact absurd hm (List.not_mem_nil entry)

/-- C3: the significance test computes the spec's z score, standard
error and two-sided p value through the spec's approximate normal CDF,
a sample is significant exactly when its p value is below 0.05, every
significant adequately sized sample is classified by the pure
threshold function of the absolute win-rate deviation, and every entry
of any relationship list of the engine's output records a sample of at
least 30 games, so an undersized sample appears in no list. -/
theorem significance_formulas_and_min_sample :
    (∀ x : ℝ, normalCDF x = specNormalCDF x) ∧
    (∀ (w : ℚ) (n : ℕ),
      (calculateStatisticalSignificance w n 0.5).zScore =
        ((w : ℝ) - 0.5) / Real.sqrt (0.25 / (n : ℝ)) ∧
      (calculateStatisticalSignificance w n 0.5).pValue =
        2 * (1 - specNormalCDF |(calculateStatisticalSignificance w n 0.5).zScore|) ∧
      ((calculateStatisticalSignificance w n 0.5).isSignificant ↔
        (calculateStatisticalSignificance w n 0.5).pValue < 0.05)) ∧
    (∀ (w : ℚ) (n : ℕ) (sig : Significance), sig.isSignificant → 30 ≤ n →
      classifyCounterStrength w n sig = specStrengthOf |w - 0.5|) ∧
    (∀ (matchups : List Matchup) (champions : List Champion) (cid : ℕ)
      (st : ChampionStat) (entry : CounterRecord),
      lookupStat (calculateCounterRelationships matchups champions) cid = some st →
      (entry ∈ st.counterRelationships.strongCounters ∨
       entry ∈ st.counterRelationships.counters ∨
       entry ∈ st.counterRelationships.counteredBy) →
      30 ≤ entry.sampleSize) := by
  refine ⟨normalCDF_eq_spec, ?_, classify_of_significant, ?_⟩
  · intro w n
    refine ⟨?_, ?_, calcSig_isSignificant_iff w n 0.5⟩
    · rw [calcSig_zScore]
      norm_num
    · rw [calcSig_pValue, normalCDF_eq_spec]
  · intro matchups champions cid st entry hlk hm
    have h : EntriesGE30 (calculateCounterRelationships matchups champions) := by
      unfold calculateCounterRelationships processCounterRelationships
      exact EntriesGE30_finalizeStats _
        (EntriesGE30_foldl_processKey _ _
          (EntriesGE30_accum matchups [] (initChampionStats champions)
            (EntriesGE30_init champions)))
    exact h cid st hlk entry hm

lemma processKey_strong_eval (cs : ChampionStats) (e : MKey × MatchupStat)
    (h30 : ¬ e.2.total < 30)
    (hsig : (calculateStatisticalSignificance ((e.2.wins : ℚ) / (e.2.total : ℚ))
      e.2.total 0.5).isSignificant)
    (hge : ((e.2.wins : ℚ) / (e.2.total : ℚ)) ≥ 0.65)
    (hnrev : ¬ ((e.2.wins : ℚ) / (e.2.total : ℚ)) ≤ 1 - 0.56) :
    processKey cs e =
      modifyStat cs e.1.1 (pushStrong
        { championId := e.1.2.1
          championName := ((lookupStat cs e.1.2.1).map (fun s => s.name)).getD "Unknown"
          lane := e.1.2.2
          matchupWinRate := (e.2.wins : ℚ) / (e.2.total : ℚ)
          sampleSize := e.2.total
          significance := (calculateStatisticalSignificance
            ((e.2.wins : ℚ) / (e.2.total : ℚ)) e.2.total 0.5).pValue
          counterStrength := classifyCounterStrength
            ((e.2.wins : ℚ) / (e.2.total : ℚ)) e.2.total
            (calculateStatisticalSignificance
              ((e.2.wins : ℚ) / (e.2.total : ℚ)) e.2.total 0.5)
          enemyWinRate := none }) := by
  simp only [processKey]
  rw [if_neg h30, if_pos hsig, if_neg hnrev, if_pos hge]

lemma processKey_reverse_eval (cs : ChampionStats) (e : MKey × MatchupStat)
    (h30 : ¬ e.2.total < 30)
    (hsig : (calculateStatisticalSignificance ((e.2.wins : ℚ) / (e.2.total : ℚ))
      e.2.total 0.5).isSignificant)
    (hlt65 : ¬ ((e.2.wins : ℚ) / (e.2.total : ℚ)) ≥ 0.65)
    (hlt56 : ¬ ((e.2.wins : ℚ) / (e.2.total : ℚ)) ≥ 0.56)
    (hrev : ((e.2.wins : ℚ) / (e.2.total : ℚ)) ≤ 1 - 0.56) :
    processKey cs e =
      modifyStat cs e.1.2.1 (pushCounteredBy
        { championId := e.1.1
          championName := ((lookupStat cs e.1.1).map (fun s => s.name)).getD "Unknown"
          lane := e.1.2.2
          matchupWinRate := 1 - (e.2.wins : ℚ) / (e.2.total : ℚ)
          sampleSize := e.2.total
          significance := (calculateStatisticalSignificance
            ((e.2.wins : ℚ) / (e.2.total : ℚ)) e.2.total 0.5).pValue
          counterStrength := classifyCounterStrength
            ((e.2.wins : ℚ) / (e.2.total : ℚ)) e.2.total
            (calculateStatisticalSignificance
              ((e.2.wins : ℚ) / (e.2.total : ℚ)) e.2.total 0.5)
          enemyWinRate := some ((e.2.wins : ℚ) / (e.2.total : ℚ)) }) := by
  simp only [processKey]
  rw [if_neg h30, if_pos hsig, if_neg hlt65, if_neg hlt56, if_pos hrev]

/-- The winner of the C1 scenario (ChampionX, id 1). -/
def champX : Champion := ⟨1, "ChampionX", "266"⟩

/-- The loser of the C1 scenario (ChampionY, id 2). -/
def champY : Champion := ⟨2, "ChampionY", "39"⟩

/-- The repeated TOP-lane observation of ChampionX beating ChampionY. -/
def scenObs : Matchup := ⟨"SCEN", .TOP, ⟨1, "ChampionX", true, 100⟩, ⟨2, "ChampionY", false, 200⟩⟩

/-- Forty identical winning observations for ChampionX over ChampionY. -/
def scenMatchups : List Matchup := List.replicate 40 scenObs

/-- The engine output of the C1 scenario. -/
noncomputable def scenStats : ChampionStats :=
  calculateCounterRelationships scenMatchups [champX, champY]

/-- The X-vs-Y sample key after accumulation: 40 wins of 40. -/
def scenE1 : MKey × MatchupStat := ((1, 2, Lane.TOP), ⟨40, 40⟩)

/-- The Y-vs-X sample key after accumulation: 0 wins of 40. -/
def scenE2 : MKey × MatchupStat := ((2, 1, Lane.TOP), ⟨0, 40⟩)

/-- The accumulated matchup samples of the scenario. -/
def scenMs : List (MKey × MatchupStat) := [scenE1, scenE2]

/-- The accumulated champion records of the scenario before the
relationship pass. -/
def scenCsAccum : ChampionStats :=
  [(1, { id := 1, name := "ChampionX", key := "266"
         overallStats := { totalGames := 40, wins := 40, winRate := 0.5, isReliable := false }
         counterRelationships := { strongCounters := [], counters := [], counteredBy := [] } }),
   (2, { id := 2, name := "ChampionY", key := "39"
         overallStats := { totalGames := 40, wins := 0, winRate := 0.5, isReliable := false }
         counterRelationships := { strongCounters := [], counters := [], counteredBy := [] } })]

lemma scen_accum :
    scenMatchups.foldl accumStep ([], initChampionStats [champX, champY]) =
      (scenMs, scenCsAccum) := by
  rfl

lemma scen_pipeline :
    scenStats = finalizeStats (processKey (processKey scenCsAccum scenE1) scenE2) := by
  show calculateCounterRelationships scenMatchups [champX, champY] = _
  unfold calculateCounterRelationships processCounterRelationships
  show finalizeStats
      ((scenMatchups.foldl accumStep ([], initChampionStats [champX, champY])).1.foldl
        processKey
        ((scenMatchups.foldl accumStep ([], initChampionStats [champX, champY])).2)) = _
  rw [scen_accum]
  rfl

lemma scen_sig1 :
    (calculateStatisticalSignificance ((scenE1.2.wins : ℚ) / (scenE1.2.total : ℚ))
      scenE1.2.total 0.5).isSignificant := by
  have h : ((scenE1.2.wins : ℚ) / (scenE1.2.total : ℚ)) = 1 := by norm_num [scenE1]
  rw [h]
  exact sig_one_forty

lemma scen_sig2 :
    (calculateStatisticalSignificance ((scenE2.2.wins : ℚ) / (scenE2.2.total : ℚ))
      scenE2.2.total 0.5).isSignificant := by
  have h : ((scenE2.2.wins : ℚ) / (scenE2.2.total : ℚ)) = 0 := by norm_num [scenE2]
  rw [h]
  exact sig_zero_forty

lemma scen_processed :
    scenStats = finalizeStats
      (processKey
        (modifyStat scenCsAccum scenE1.1.1 (pushStrong
          { championId := scenE1.1.2.1
            championName := ((lookupStat scenCsAccum scenE1.1.2.1).map
              (fun s => s.name)).getD "Unknown"
            lane := scenE1.1.2.2
            matchupWinRate := (scenE1.2.wins : ℚ) / (scenE1.2.total : ℚ)
            sampleSize := scenE1.2.total
            significance := (calculateStatisticalSignificance
              ((scenE1.2.wins : ℚ) / (scenE1.2.total : ℚ)) scenE1.2.total 0.5).pValue
            counterStrength := classifyCounterStrength
              ((scenE1.2.wins : ℚ) / (scenE1.2.total : ℚ)) scenE1.2.total
              (calculateStatisticalSignificance
                ((scenE1.2.wins : ℚ) / (scenE1.2.total : ℚ)) scenE1.2.total 0.5)
            enemyWinRate := none }))
        scenE2) := by
  rw [scen_pipeline,
    processKey_strong_eval scenCsAccum scenE1 (by norm_num [scenE1]) scen_sig1
      (by norm_num [scenE1]) (by norm_num [scenE1])]

/-- C1 counterexample: after forty identical TOP observations of
ChampionX (id 1) beating ChampionY (id 2), ChampionY's counteredBy list
is empty, so it contains no entry referencing ChampionX at all. -/
theorem scenario_Y_counteredBy_empty :
    (lookupStat scenStats 2).map (fun s => s.counterRelationships.counteredBy) = some [] := by
  rw [scen_processed,
    processKey_reverse_eval _ scenE2 (by norm_num [scenE2]) scen_sig2
      (by norm_num [scenE2]) (by norm_num [scenE2]) (by norm_num [scenE2])]
  rfl

/-- C1 amended: the reciprocal entry of the scenario lands on the
winner: ChampionX's counteredBy list holds exactly one entry, it
references ChampionY with enemyWinRate 0 (the loser's own rate, the
mirrored matchupWinRate being 1), strength class HARD_COUNTER and
sample size 40, while ChampionY's counteredBy list is empty. -/
theorem scenario_X_counteredBy_entry :
    ∃ entry : CounterRecord,
      (lookupStat scenStats 1).map (fun s => s.counterRelationships.counteredBy) =
        some [entry] ∧
      entry.championId = 2 ∧
      entry.enemyWinRate = some 0 ∧
      entry.matchupWinRate = 1 ∧
      entry.counterStrength = .HARD_COUNTER ∧
      entry.sampleSize = 40 ∧
      entry.lane = .TOP ∧
      (lookupStat scenStats 2).map (fun s => s.counterRelationships.counteredBy) = some [] := by
  rw [scen_processed,
    processKey_reverse_eval _ scenE2 (by norm_num [scenE2]) scen_sig2
      (by norm_num [scenE2]) (by norm_num [scenE2]) (by norm_num [scenE2])]
  refine ⟨_, rfl, rfl, ?_, ?_, ?_, rfl, rfl, rfl⟩
  · show some ((scenE2.2.wins : ℚ) / (scenE2.2.total : ℚ)) = some 0
    norm_num [scenE2]
  · show 1 - (scenE2.2.wins : ℚ) / (scenE2.2.total : ℚ) = 1
    norm_num [scenE2]
  · show classifyCounterStrength ((scenE2.2.wins : ℚ) / (scenE2.2.total : ℚ))
      scenE2.2.total (calculateStatisticalSignificance
        ((scenE2.2.wins : ℚ) / (scenE2.2.total : ℚ)) scenE2.2.total 0.5) = .HARD_COUNTER
    rw [classify_of_significant _ _ _ scen_sig2 (by norm_num [scenE2])]
    rw [show ((scenE2.2.wins : ℚ)) / (scenE2.2.total : ℚ) - 0.5 = -(1/2) by norm_num [scenE2],
      abs_neg, abs_of_nonneg (by norm_num : (0 : ℚ) ≤ 1 / 2)]
    norm_num [specStrengthOf]

lemma scen_strong_entry :
    ∃ st entry, lookupStat scenStats 1 = some st ∧
      entry ∈ st.counterRelationships.strongCounters := by
  rw [scen_processed,
    processKey_reverse_eval _ scenE2 (by norm_num [scenE2]) scen_sig2
      (by norm_num [scenE2]) (by norm_num [scenE2]) (by norm_num [scenE2])]
  exact ⟨_, _, rfl, List.Mem.head _⟩

/-- Witness for the significance formulas at concrete inputs, and for
the minimum-sample bound at the entry produced by the forty-game
scenario. -/
theorem significance_witness :
    normalCDF 0 = specNormalCDF 0 ∧
    ((calculateStatisticalSignificance 1 40 0.5).isSignificant ↔
      (calculateStatisticalSignificance 1 40 0.5).pValue < 0.05) ∧
    (calculateStatisticalSignificance 1 40 0.5).isSignificant ∧
    classifyCounterStrength 1 40 (calculateStatisticalSignificance 1 40 0.5) =
      specStrengthOf |1 - 0.5| ∧
    (∃ st entry, lookupStat scenStats 1 = some st ∧
      entry ∈ st.counterRelationships.strongCounters ∧ 30 ≤ entry.sampleSize) := by
  obtain ⟨hcdf, hform, hclass, hmin⟩ := significance_formulas_and_min_sample
  obtain ⟨st, entry, hlk, hmem⟩ := scen_strong_entry
  exact ⟨hcdf 0, (hform 1 40).2.2, sig_one_forty,
    hclass 1 40 _ sig_one_forty (by norm_num),
    st, entry, hlk, hmem,
    hmin scenMatchups [champX, champY] 1 st entry hlk (Or.inl hmem)⟩

end CounterFinder
